import Mathlib

/-!
Verification of the cross-platform camera control tool
(`yaoian/cross-platform-camera-control`).

The Python sources are shallowly embedded: pure byte-level decoders become
Lean functions on `List Nat` byte buffers (each entry a byte value `< 256`,
as produced by Python `bytearray`s), Python `float` arithmetic on frame
rates is idealized as exact rational arithmetic (`ℚ`), and the stateful
`AdvancedControlManager` (advanced_controls.py) becomes explicit state
passing over a manager-state record together with an idealized key-value
backend device.
-/

/-! ## Byte-buffer primitives (struct.unpack on bytearray slices) -/

/-- Little-endian unsigned 32-bit read at `off`, as in `struct.unpack('<I', b[off:off+4])`.
Out-of-range indices read as 0; Python byte values are always `< 256`, the
`% 256` mirrors that invariant. -/
def u32le (b : List Nat) (off : Nat) : Nat :=
  b.getD off 0 % 256 + 256 * (b.getD (off + 1) 0 % 256) +
    65536 * (b.getD (off + 2) 0 % 256) + 16777216 * (b.getD (off + 3) 0 % 256)

/-- Little-endian unsigned 16-bit read, as in `struct.unpack('<H', ...)`. -/
def u16le (b : List Nat) (off : Nat) : Nat :=
  b.getD off 0 % 256 + 256 * (b.getD (off + 1) 0 % 256)

/-- Little-endian unsigned 64-bit read, as in `struct.unpack('<Q', ...)`. -/
def u64le (b : List Nat) (off : Nat) : Nat :=
  u32le b off + 4294967296 * u32le b (off + 4)

/-- Little-endian signed 32-bit read, as in `struct.unpack('<i', ...)`. -/
def i32le (b : List Nat) (off : Nat) : Int :=
  let u := u32le b off
  if u < 2147483648 then (u : Int) else (u : Int) - 4294967296

/-- The `i`-th byte of an unbounded integer, `(x >> (8*i)) & 0xFF` in Python. -/
def byteAt (x : Nat) (i : Nat) : Nat := x / 256 ^ i % 256

/-- One FOURCC byte rendered as text: printable ASCII passes through,
anything else becomes `'?'` (shared by all three platform decoders). -/
def fourccChar (b : Nat) : Char :=
  if 32 ≤ b ∧ b ≤ 126 then Char.ofNat b else '?'

namespace LinuxV4L2

/-- Model of `LinuxV4L2Controller._fourcc_to_string` (linux_v4l2.py:508): bytes taken
low-byte-first, `(fourcc >> (8*i)) & 0xFF` for `i = 0..3`. -/
def fourcc_to_string (fourcc : Nat) : String :=
  String.mk ((List.range 4).map fun i => fourccChar (byteAt fourcc i))

end LinuxV4L2

namespace WinDS

/-- Model of `WindowsDirectShowController._fourcc_to_string` (windows_directshow.py:743):
identical byte order to the Linux decoder. -/
def fourcc_to_string (fourcc : Nat) : String :=
  String.mk ((List.range 4).map fun i => fourccChar (byteAt fourcc i))

end WinDS

namespace MacOSAV

/-- Model of `MacOSAVFoundationController._fourcc_to_string` (macos_avfoundation.py:255):
bytes taken high-byte-first, `(fourcc >> (8*(3-i))) & 0xFF` for `i = 0..3`. -/
def fourcc_to_string (fourcc : Nat) : String :=
  String.mk ((List.range 4).map fun i => fourccChar (byteAt fourcc (3 - i)))

end MacOSAV

/-- Packing four character codes low-byte-first into one 32-bit integer
(the inverse direction used to state the FOURCC round-trip). -/
def fourccPack (c0 c1 c2 c3 : Nat) : Nat :=
  c0 + 256 * c1 + 65536 * c2 + 16777216 * c3

theorem byteAt_fourccPack_0 (c0 c1 c2 c3 : Nat) (h0 : c0 < 256) :
    byteAt (fourccPack c0 c1 c2 c3) 0 = c0 := by
  simp only [byteAt, fourccPack, pow_zero, Nat.div_one]
  omega

theorem byteAt_fourccPack_1 (c0 c1 c2 c3 : Nat) (h0 : c0 < 256) (h1 : c1 < 256) :
    byteAt (fourccPack c0 c1 c2 c3) 1 = c1 := by
  simp only [byteAt, fourccPack, pow_one]
  omega

theorem byteAt_fourccPack_2 (c0 c1 c2 c3 : Nat) (h0 : c0 < 256) (h1 : c1 < 256)
    (h2 : c2 < 256) : byteAt (fourccPack c0 c1 c2 c3) 2 = c2 := by
  simp only [byteAt, fourccPack]
  norm_num
  omega

theorem byteAt_fourccPack_3 (c0 c1 c2 c3 : Nat) (h0 : c0 < 256) (h1 : c1 < 256)
    (h2 : c2 < 256) (h3 : c3 < 256) : byteAt (fourccPack c0 c1 c2 c3) 3 = c3 := by
  simp only [byteAt, fourccPack]
  norm_num
  omega

theorem fourccChar_printable (b : Nat) (h1 : 32 ≤ b) (h2 : b ≤ 126) :
    fourccChar b = Char.ofNat b := by
  simp [fourccChar, h1, h2]

/-- C4: For every 4-tuple of printable ASCII characters (codes 32..126), packing
the characters low-byte-first into a 32-bit integer and decoding with the
Linux/Windows FOURCC decoder yields the original 4-character string, while
decoding the same integer with the macOS FOURCC decoder yields the byte-reversed
string. -/
theorem fourcc_roundtrip_printable (c0 c1 c2 c3 : Nat)
    (h0 : 32 ≤ c0 ∧ c0 ≤ 126) (h1 : 32 ≤ c1 ∧ c1 ≤ 126)
    (h2 : 32 ≤ c2 ∧ c2 ≤ 126) (h3 : 32 ≤ c3 ∧ c3 ≤ 126) :
    LinuxV4L2.fourcc_to_string (fourccPack c0 c1 c2 c3) =
      String.mk [Char.ofNat c0, Char.ofNat c1, Char.ofNat c2, Char.ofNat c3] ∧
    WinDS.fourcc_to_string (fourccPack c0 c1 c2 c3) =
      String.mk [Char.ofNat c0, Char.ofNat c1, Char.ofNat c2, Char.ofNat c3] ∧
    MacOSAV.fourcc_to_string (fourccPack c0 c1 c2 c3) =
      String.mk [Char.ofNat c3, Char.ofNat c2, Char.ofNat c1, Char.ofNat c0] := by
  have e0 := byteAt_fourccPack_0 c0 c1 c2 c3 (by omega)
  have e1 := byteAt_fourccPack_1 c0 c1 c2 c3 (by omega) (by omega)
  have e2 := byteAt_fourccPack_2 c0 c1 c2 c3 (by omega) (by omega) (by omega)
  have e3 := byteAt_fourccPack_3 c0 c1 c2 c3 (by omega) (by omega) (by omega) (by omega)
  refine ⟨?_, ?_, ?_⟩ <;>
    simp [LinuxV4L2.fourcc_to_string, WinDS.fourcc_to_string, MacOSAV.fourcc_to_string,
      List.range_succ, e0, e1, e2, e3,
      fourccChar_printable _ h0.1 h0.2, fourccChar_printable _ h1.1 h1.2,
      fourccChar_printable _ h2.1 h2.2, fourccChar_printable _ h3.1 h3.2]

/-- C4 witness: the code "YUYV" (89, 85, 89, 86) round-trips through the
Linux/Windows decoder and is byte-reversed by the macOS decoder. -/
theorem fourcc_roundtrip_printable_witness :
    LinuxV4L2.fourcc_to_string (fourccPack 89 85 89 86) = "YUYV" ∧
    WinDS.fourcc_to_string (fourccPack 89 85 89 86) = "YUYV" ∧
    MacOSAV.fourcc_to_string (fourccPack 89 85 89 86) = "VYUY" := by
  have h := fourcc_roundtrip_printable 89 85 89 86
    (by decide) (by decide) (by decide) (by decide)
  exact ⟨h.1.trans (by decide), h.2.1.trans (by decide), h.2.2.trans (by decide)⟩

namespace LinuxV4L2

/-! ## V4L2 frame-size enumeration (`_enum_frame_sizes`, linux_v4l2.py:338)

The `while True` ioctl loop is modelled by the list of successful
`VIDIOC_ENUM_FRAMESIZES` responses in index order (the first failing index
breaks the loop). Each response is a 44-byte buffer. -/

/-- The fixed candidate list of common resolutions tested against a stepwise
range (linux_v4l2.py:372). -/
def common_sizes : List (Nat × Nat) :=
  [(640, 480), (800, 600), (1024, 768), (1280, 720), (1920, 1080)]

/-- Per-buffer accumulation of `_enum_frame_sizes`: discriminator `u32` at
offset 8; `1` (discrete) appends the width/height pair at offsets 12/16; `2`
(stepwise) appends the in-bounds candidates (width bounds at 12/16, height
bounds at 24/28); other types append nothing. -/
def enum_frame_sizes_aux : List (List Nat) → List (Nat × Nat)
  | [] => []
  | b :: rest =>
    let t := u32le b 8
    if t = 1 then
      (u32le b 12, u32le b 16) :: enum_frame_sizes_aux rest
    else if t = 2 then
      (common_sizes.filter fun s =>
        decide (u32le b 12 ≤ s.1 ∧ s.1 ≤ u32le b 16 ∧
          u32le b 24 ≤ s.2 ∧ s.2 ≤ u32le b 28)) ++ enum_frame_sizes_aux rest
    else enum_frame_sizes_aux rest

/-- Model of `_enum_frame_sizes`: the loop result with the 640x480 fallback when
nothing was discovered (linux_v4l2.py:387). -/
def enum_frame_sizes (bufs : List (List Nat)) : List (Nat × Nat) :=
  let r := enum_frame_sizes_aux bufs
  if r.isEmpty then [(640, 480)] else r

/-! ## V4L2 frame-interval enumeration (`_enum_frame_intervals`, linux_v4l2.py:392)

Frame rates are Python floats; they are idealized here as exact rationals.
A discrete buffer with `denominator > 0` but `numerator = 0` makes the Python
division raise `ZeroDivisionError`, which the enclosing `except` turns into a
loop break: the model stops the enumeration there. -/

/-- Per-buffer accumulation of `_enum_frame_intervals`: discriminator `u32` at
offset 16; type `1` (discrete) with denominator (offset 24) positive appends
`denominator / numerator` (numerator at offset 20); a zero denominator or a
non-1 type appends nothing. -/
def enum_frame_intervals_aux : List (List Nat) → List ℚ
  | [] => []
  | b :: rest =>
    if u32le b 16 = 1 then
      if 0 < u32le b 24 then
        if u32le b 20 = 0 then []
        else ((u32le b 24 : ℚ) / (u32le b 20 : ℚ)) :: enum_frame_intervals_aux rest
      else enum_frame_intervals_aux rest
    else enum_frame_intervals_aux rest

/-- Model of `_enum_frame_intervals`: the loop result with the single 30.0 fps fallback
when nothing was discovered (linux_v4l2.py:431). -/
def enum_frame_intervals (bufs : List (List Nat)) : List ℚ :=
  let r := enum_frame_intervals_aux bufs
  if r.isEmpty then [(30 : ℚ)] else r

end LinuxV4L2

/-- C5: a frame-interval buffer with discriminator 1 at offset 16, numerator
`n` at offset 20 and denominator `d` at offset 24 contributes exactly the rate
`d / n` when `d > 0` (reading `d / n` as a rate presupposes `n > 0`; for
`n = 0` the Python division raises and the loop breaks with no entry), and no
entry when `d = 0`; a buffer with a non-1 discriminator contributes no entry;
and an enumeration that discovers no rate at all returns exactly `[30.0]`. -/
theorem frame_interval_enumeration_spec :
    (∀ (b : List Nat) (rest : List (List Nat)) (n d : Nat),
      u32le b 16 = 1 → u32le b 20 = n → u32le b 24 = d → 0 < n →
        ((0 < d →
          LinuxV4L2.enum_frame_intervals_aux (b :: rest) =
            ((d : ℚ) / (n : ℚ)) :: LinuxV4L2.enum_frame_intervals_aux rest) ∧
         (d = 0 →
          LinuxV4L2.enum_frame_intervals_aux (b :: rest) =
            LinuxV4L2.enum_frame_intervals_aux rest))) ∧
    (∀ (b : List Nat) (rest : List (List Nat)), u32le b 16 ≠ 1 →
      LinuxV4L2.enum_frame_intervals_aux (b :: rest) =
        LinuxV4L2.enum_frame_intervals_aux rest) ∧
    (∀ bufs : List (List Nat), LinuxV4L2.enum_frame_intervals_aux bufs = [] →
      LinuxV4L2.enum_frame_intervals bufs = [(30 : ℚ)]) := by
  refine ⟨?_, ?_, ?_⟩
  · intro b rest n d ht hn hd hpos
    constructor
    · intro hdpos
      rw [LinuxV4L2.enum_frame_intervals_aux, if_pos ht, if_pos (hd ▸ hdpos),
        if_neg (by omega : ¬ u32le b 20 = 0), hn, hd]
    · intro hd0
      rw [LinuxV4L2.enum_frame_intervals_aux, if_pos ht,
        if_neg (by omega : ¬ 0 < u32le b 24)]
  · intro b rest ht
    rw [LinuxV4L2.enum_frame_intervals_aux, if_neg ht]
  · intro bufs h
    rw [LinuxV4L2.enum_frame_intervals, h]
    rfl

/-- A concrete 52-byte discrete frame-interval response with numerator 1 at
offset 20 and denominator 30 at offset 24. -/
def ivalBuf30 : List Nat :=
  [0, 0, 0, 0, 0, 0, 0, 0, 0, 0, 0, 0, 0, 0, 0, 0,
   1, 0, 0, 0, 1, 0, 0, 0, 30, 0, 0, 0, 0, 0, 0, 0,
   0, 0, 0, 0, 0, 0, 0, 0, 0, 0, 0, 0, 0, 0, 0, 0, 0, 0, 0, 0]

/-- A concrete discrete frame-interval response with denominator 0. -/
def ivalBuf0 : List Nat :=
  [0, 0, 0, 0, 0, 0, 0, 0, 0, 0, 0, 0, 0, 0, 0, 0,
   1, 0, 0, 0, 1, 0, 0, 0, 0, 0, 0, 0, 0, 0, 0, 0,
   0, 0, 0, 0, 0, 0, 0, 0, 0, 0, 0, 0, 0, 0, 0, 0, 0, 0, 0, 0]

/-- C5 witness: the numerator-1/denominator-30 buffer yields exactly 30.0 fps;
a denominator-0 buffer yields no entry, and the empty enumeration falls back
to `[30.0]`. -/
theorem frame_interval_enumeration_spec_witness :
    LinuxV4L2.enum_frame_intervals_aux [ivalBuf30] = [(30 : ℚ)] ∧
    LinuxV4L2.enum_frame_intervals_aux [ivalBuf0] = [] ∧
    LinuxV4L2.enum_frame_intervals [ivalBuf0] = [(30 : ℚ)] := by
  have h1 := (frame_interval_enumeration_spec.1 ivalBuf30 [] 1 30
    (by decide) (by decide) (by decide) (by decide)).1 (by decide)
  have h2 := (frame_interval_enumeration_spec.1 ivalBuf0 [] 1 0
    (by decide) (by decide) (by decide) (by decide)).2 rfl
  have hnil : LinuxV4L2.enum_frame_intervals_aux [] = [] := rfl
  refine ⟨h1.trans (by rw [hnil]; norm_num), h2.trans hnil, ?_⟩
  exact frame_interval_enumeration_spec.2.2 [ivalBuf0] (h2.trans hnil)

/-- C6: a stepwise frame-size buffer (discriminator 2 at offset 8) contributes
exactly the candidates of the fixed common-resolution list lying within the
reported width bounds (offsets 12/16) and height bounds (offsets 24/28); with
bounds 320..1920 x 240..1080 this includes (640,480), (1280,720) and
(1920,1080); and an enumeration that discovers no size at all returns exactly
`[(640, 480)]`. -/
theorem frame_size_enumeration_spec :
    (∀ (b : List Nat) (rest : List (List Nat)), u32le b 8 = 2 →
      LinuxV4L2.enum_frame_sizes_aux (b :: rest) =
        (LinuxV4L2.common_sizes.filter fun s =>
          decide (u32le b 12 ≤ s.1 ∧ s.1 ≤ u32le b 16 ∧
            u32le b 24 ≤ s.2 ∧ s.2 ≤ u32le b 28)) ++
          LinuxV4L2.enum_frame_sizes_aux rest) ∧
    (∀ (b : List Nat) (rest : List (List Nat)), u32le b 8 = 2 →
      u32le b 12 = 320 → u32le b 16 = 1920 → u32le b 24 = 240 → u32le b 28 = 1080 →
        (640, 480) ∈ LinuxV4L2.enum_frame_sizes_aux (b :: rest) ∧
        (1280, 720) ∈ LinuxV4L2.enum_frame_sizes_aux (b :: rest) ∧
        (1920, 1080) ∈ LinuxV4L2.enum_frame_sizes_aux (b :: rest)) ∧
    (∀ bufs : List (List Nat), LinuxV4L2.enum_frame_sizes_aux bufs = [] →
      LinuxV4L2.enum_frame_sizes bufs = [(640, 480)]) := by
  have key : ∀ (b : List Nat) (rest : List (List Nat)), u32le b 8 = 2 →
      LinuxV4L2.enum_frame_sizes_aux (b :: rest) =
        (LinuxV4L2.common_sizes.filter fun s =>
          decide (u32le b 12 ≤ s.1 ∧ s.1 ≤ u32le b 16 ∧
            u32le b 24 ≤ s.2 ∧ s.2 ≤ u32le b 28)) ++
          LinuxV4L2.enum_frame_sizes_aux rest := by
    intro b rest ht
    rw [LinuxV4L2.enum_frame_sizes_aux]
    simp only [ht]
    rfl
  refine ⟨key, ?_, ?_⟩
  · intro b rest ht h12 h16 h24 h28
    rw [key b rest ht]
    simp [LinuxV4L2.common_sizes, h12, h16, h24, h28]
  · intro bufs h
    rw [LinuxV4L2.enum_frame_sizes, h]
    rfl

/-- A concrete 44-byte stepwise frame-size response with width bounds 320..1920
(offsets 12/16) and height bounds 240..1080 (offsets 24/28). -/
def sizeBufStepwise : List Nat :=
  [0, 0, 0, 0, 0, 0, 0, 0, 2, 0, 0, 0,
   64, 1, 0, 0, 128, 7, 0, 0, 1, 0, 0, 0,
   240, 0, 0, 0, 56, 4, 0, 0, 1, 0, 0, 0,
   0, 0, 0, 0, 0, 0, 0, 0]

/-- C6 witness: the 320..1920 x 240..1080 stepwise buffer keeps all five
common candidates (in particular the three required ones), and an empty
enumeration falls back to `[(640, 480)]`. -/
theorem frame_size_enumeration_spec_witness :
    LinuxV4L2.enum_frame_sizes_aux [sizeBufStepwise] =
      [(640, 480), (800, 600), (1024, 768), (1280, 720), (1920, 1080)] ∧
    (640, 480) ∈ LinuxV4L2.enum_frame_sizes_aux [sizeBufStepwise] ∧
    LinuxV4L2.enum_frame_sizes [] = [(640, 480)] := by
  have h1 := frame_size_enumeration_spec.1 sizeBufStepwise [] (by decide)
  have h2 := (frame_size_enumeration_spec.2.1 sizeBufStepwise [] (by decide)
    (by decide) (by decide) (by decide) (by decide)).1
  have h3 := frame_size_enumeration_spec.2.2 [] rfl
  exact ⟨h1.trans (by decide), h2, h3⟩

namespace LinuxV4L2

/-! ## V4L2 control query (`_query_control`, linux_v4l2.py:436) -/

/-- The decoded fields of a successful `VIDIOC_QUERYCTRL` response
(fixed 68-byte layout). The 32-byte name field (offsets 8..39) is kept as raw
bytes; its UTF-8 text decoding is display-only and not modelled. -/
structure QueryCtrlInfo where
  ctrl_type : Nat
  name_bytes : List Nat
  minimum : Int
  maximum : Int
  step : Int
  default_value : Int
  flags : Nat
deriving DecidableEq, Repr

/-- Model of `_query_control`'s buffer decoding: type `u32` at offset 4,
minimum/maximum/step/default as signed little-endian 32-bit at offsets
40/44/48/52, flags `u32` at offset 56. -/
def query_control_decode (b : List Nat) : QueryCtrlInfo :=
  { ctrl_type := u32le b 4
    name_bytes := (b.drop 8).take 32
    minimum := i32le b 40
    maximum := i32le b 44
    step := i32le b 48
    default_value := i32le b 52
    flags := u32le b 56 }

end LinuxV4L2

/-- Little-endian byte serialization of an unsigned 32-bit value (spec side,
used to describe well-formed control-query buffers). -/
def u32Bytes (x : Nat) : List Nat :=
  [x % 256, x / 256 % 256, x / 65536 % 256, x / 16777216 % 256]

/-- Little-endian byte serialization of a signed 32-bit value (two's
complement), the encoding `struct.pack('<i', x)` would produce. -/
def i32Bytes (x : Int) : List Nat :=
  u32Bytes (x % 4294967296).toNat

theorem u32le_cons (a0 a1 a2 a3 : Nat) (rest : List Nat) :
    u32le (a0 :: a1 :: a2 :: a3 :: rest) 0 =
      a0 % 256 + 256 * (a1 % 256) + 65536 * (a2 % 256) + 16777216 * (a3 % 256) := rfl

theorem u32le_u32Bytes_append (x : Nat) (post : List Nat) (hx : x < 4294967296) :
    u32le (u32Bytes x ++ post) 0 = x := by
  rw [show u32Bytes x ++ post =
      x % 256 :: x / 256 % 256 :: x / 65536 % 256 :: x / 16777216 % 256 :: post from rfl,
    u32le_cons]
  omega

theorem u32le_cons4 (a0 a1 a2 a3 : Nat) (rest : List Nat) (k : Nat) :
    u32le (a0 :: a1 :: a2 :: a3 :: rest) (k + 4) = u32le rest k := rfl

theorem u32le_append_skip (pre : List Nat) (rest : List Nat) (k : Nat)
    (h : pre.length = 4) : u32le (pre ++ rest) (k + 4) = u32le rest k := by
  match pre, h with
  | [a0, a1, a2, a3], _ => exact u32le_cons4 a0 a1 a2 a3 rest k

theorem i32le_i32Bytes_append (x : Int) (post : List Nat)
    (hlo : -2147483648 ≤ x) (hhi : x < 2147483648) :
    i32le (i32Bytes x ++ post) 0 = x := by
  rw [i32Bytes, i32le, u32le_u32Bytes_append _ _ (by omega)]
  split <;> omega

theorem getD_append_skip (pre rest : List Nat) (k : Nat) :
    (pre ++ rest).getD (pre.length + k) 0 = rest.getD k 0 := by
  rw [List.getD_append_right _ _ _ _ (by omega), Nat.add_sub_cancel_left]

theorem u32le_append_len (pre rest : List Nat) (k : Nat) :
    u32le (pre ++ rest) (pre.length + k) = u32le rest k := by
  simp only [u32le,
    show pre.length + k + 1 = pre.length + (k + 1) from rfl,
    show pre.length + k + 2 = pre.length + (k + 2) from rfl,
    show pre.length + k + 3 = pre.length + (k + 3) from rfl,
    getD_append_skip]

theorem i32le_append_len (pre rest : List Nat) (k : Nat) :
    i32le (pre ++ rest) (pre.length + k) = i32le rest k := by
  rw [i32le, i32le, u32le_append_len]

theorem i32le_i32Bytes_skip (x : Int) (rest : List Nat) (k : Nat) :
    i32le (i32Bytes x ++ rest) (k + 4) = i32le rest k := rfl

/-- A well-formed 68-byte `VIDIOC_QUERYCTRL` response whose four numeric
fields at offsets 40/44/48/52 encode `m`, `M`, `s`, `d`: 40 header bytes
(id, type, name), the four signed little-endian 32-bit fields, then flags
and reserved bytes. -/
def queryCtrlEncode (pre : List Nat) (m M s d : Int) (post : List Nat) : List Nat :=
  pre ++ (i32Bytes m ++ (i32Bytes M ++ (i32Bytes s ++ (i32Bytes d ++ post))))

/-- C8: decoding a well-formed control-query buffer returns exactly the signed
little-endian 32-bit fields encoded at offsets 40 (minimum), 44 (maximum),
48 (step) and 52 (default) unaltered; hence whenever the encoded fields
satisfy `m ≤ d ≤ M`, the decoded tuple satisfies the same ordering, and the
decoder produces no value outside the declared range. -/
theorem query_control_decode_fields (pre : List Nat) (m M s d : Int) (post : List Nat)
    (hpre : pre.length = 40)
    (hm : -2147483648 ≤ m ∧ m < 2147483648) (hM : -2147483648 ≤ M ∧ M < 2147483648)
    (hs : -2147483648 ≤ s ∧ s < 2147483648) (hd : -2147483648 ≤ d ∧ d < 2147483648) :
    (LinuxV4L2.query_control_decode (queryCtrlEncode pre m M s d post)).minimum = m ∧
    (LinuxV4L2.query_control_decode (queryCtrlEncode pre m M s d post)).maximum = M ∧
    (LinuxV4L2.query_control_decode (queryCtrlEncode pre m M s d post)).step = s ∧
    (LinuxV4L2.query_control_decode (queryCtrlEncode pre m M s d post)).default_value = d ∧
    (m ≤ d → d ≤ M →
      (LinuxV4L2.query_control_decode (queryCtrlEncode pre m M s d post)).minimum ≤
          (LinuxV4L2.query_control_decode (queryCtrlEncode pre m M s d post)).default_value ∧
        (LinuxV4L2.query_control_decode (queryCtrlEncode pre m M s d post)).default_value ≤
          (LinuxV4L2.query_control_decode (queryCtrlEncode pre m M s d post)).maximum) := by
  have h40 : ∀ k : Nat, 40 + k = pre.length + k := by omega
  have hmin : (LinuxV4L2.query_control_decode (queryCtrlEncode pre m M s d post)).minimum
      = m := by
    show i32le (queryCtrlEncode pre m M s d post) 40 = m
    rw [queryCtrlEncode, show (40 : Nat) = 40 + 0 from rfl, h40 0, i32le_append_len]
    exact i32le_i32Bytes_append m _ hm.1 hm.2
  have hmax : (LinuxV4L2.query_control_decode (queryCtrlEncode pre m M s d post)).maximum
      = M := by
    show i32le (queryCtrlEncode pre m M s d post) 44 = M
    rw [queryCtrlEncode, show (44 : Nat) = 40 + 4 from rfl, h40 4, i32le_append_len,
      show (4 : Nat) = 0 + 4 from rfl, i32le_i32Bytes_skip]
    exact i32le_i32Bytes_append M _ hM.1 hM.2
  have hstep : (LinuxV4L2.query_control_decode (queryCtrlEncode pre m M s d post)).step
      = s := by
    show i32le (queryCtrlEncode pre m M s d post) 48 = s
    rw [queryCtrlEncode, show (48 : Nat) = 40 + 8 from rfl, h40 8, i32le_append_len,
      show (8 : Nat) = 0 + 4 + 4 from rfl, i32le_i32Bytes_skip, i32le_i32Bytes_skip]
    exact i32le_i32Bytes_append s _ hs.1 hs.2
  have hdef : (LinuxV4L2.query_control_decode
      (queryCtrlEncode pre m M s d post)).default_value = d := by
    show i32le (queryCtrlEncode pre m M s d post) 52 = d
    rw [queryCtrlEncode, show (52 : Nat) = 40 + 12 from rfl, h40 12, i32le_append_len,
      show (12 : Nat) = 0 + 4 + 4 + 4 from rfl, i32le_i32Bytes_skip, i32le_i32Bytes_skip,
      i32le_i32Bytes_skip]
    exact i32le_i32Bytes_append d _ hd.1 hd.2
  refine ⟨hmin, hmax, hstep, hdef, ?_⟩
  intro h1 h2
  rw [hmin, hmax, hdef]
  exact ⟨h1, h2⟩

/-- C8 witness: a concrete buffer encoding minimum -10, maximum 100, step 1,
default 50 decodes to exactly those values, ordered. -/
theorem query_control_decode_fields_witness :
    (LinuxV4L2.query_control_decode
        (queryCtrlEncode (List.replicate 40 0) (-10) 100 1 50 (List.replicate 12 0))).minimum
      = -10 ∧
    (LinuxV4L2.query_control_decode
        (queryCtrlEncode (List.replicate 40 0) (-10) 100 1 50 (List.replicate 12 0))).minimum ≤
      (LinuxV4L2.query_control_decode
        (queryCtrlEncode (List.replicate 40 0) (-10) 100 1 50
          (List.replicate 12 0))).default_value := by
  have h := query_control_decode_fields (List.replicate 40 0) (-10) 100 1 50
    (List.replicate 12 0) (by decide) (by norm_num) (by norm_num) (by norm_num) (by norm_num)
  exact ⟨h.1, (h.2.2.2.2 (by norm_num) (by norm_num)).1⟩

theorem getD_drop (n : Nat) : ∀ (l : List Nat) (k : Nat),
    (l.drop n).getD k 0 = l.getD (n + k) 0 := by
  induction n with
  | zero => intro l k; rw [List.drop_zero, Nat.zero_add]
  | succ n ih =>
    intro l k
    cases l with
    | nil => rfl
    | cons a l =>
      rw [List.drop_succ_cons, ih l k,
        show n + 1 + k = (n + k) + 1 by omega, List.getD_cons_succ]

theorem u32le_drop (l : List Nat) (n k : Nat) :
    u32le (l.drop n) k = u32le l (n + k) := by
  simp only [u32le, getD_drop,
    show ∀ k : Nat, n + k + 1 = n + (k + 1) from fun k => rfl,
    show ∀ k : Nat, n + k + 2 = n + (k + 2) from fun k => rfl,
    show ∀ k : Nat, n + k + 3 = n + (k + 3) from fun k => rfl]

theorem i32le_drop (l : List Nat) (n k : Nat) :
    i32le (l.drop n) k = i32le l (n + k) := by
  rw [i32le, i32le, u32le_drop]

theorem u16le_drop (l : List Nat) (n k : Nat) :
    u16le (l.drop n) k = u16le l (n + k) := by
  simp only [u16le, getD_drop, show n + k + 1 = n + (k + 1) from rfl]

namespace WinDS

/-! ## Windows media-type parsing (`_parse_video_format`, windows_directshow.py:667)

The model takes the `pbFormat` byte buffer of a media type whose
majortype/formattype guards already passed (`MEDIATYPE_Video` with
`FORMAT_VideoInfo`); frame rates are Python floats idealized as exact
rationals. -/

/-- Model of `VideoFormat` (video_device_controller.py:23). -/
structure VideoFormat where
  width : Nat
  height : Int
  fps : ℚ
  pixel_format : String
deriving DecidableEq, Repr

/-- Model of `_parse_video_format`: buffers shorter than 40 + 40 bytes are skipped
(`None`); otherwise the `BITMAPINFOHEADER` starts at offset 40 (width `u32`
at rel-offset 4, height `i32` at rel-offset 8 taken absolutely, bit count
`u16` at rel-offset 14, compression FOURCC `u32` at rel-offset 16), and the
frame rate is 10,000,000 / AvgTimePerFrame (`u64` at offsets 32..39) when
that value is positive, else the 30.0 default. -/
def parse_video_format (format_data : List Nat) : Option VideoFormat :=
  if format_data.length < 40 + 40 then Option.none
  else
    let bitmap_data := format_data.drop 40
    let width := u32le bitmap_data 4
    let height := |i32le bitmap_data 8|
    let bit_count := u16le bitmap_data 14
    let compression := u32le bitmap_data 16
    let pf := fourcc_to_string compression
    let pixel_format :=
      if pf = "\x00\x00\x00\x00" then "RGB" ++ toString bit_count else pf
    let fps : ℚ :=
      if 40 ≤ format_data.length then
        let avg_time_per_frame := u64le format_data 32
        if 0 < avg_time_per_frame then 10000000 / (avg_time_per_frame : ℚ) else 30
      else 30
    Option.some ⟨width, height, fps, pixel_format⟩

end WinDS

/-- C7: a media-type format buffer shorter than 80 bytes (40-byte header plus
40-byte BITMAPINFOHEADER) parses to no format; otherwise the parsed format has
width equal to the u32 at absolute offset 44, height equal to the absolute
value of the i32 at absolute offset 48, and fps equal to 10,000,000 divided by
the u64 at offsets 32..39 when that value is positive, else 30.0. -/
theorem parse_video_format_spec (format_data : List Nat) :
    (format_data.length < 80 → WinDS.parse_video_format format_data = Option.none) ∧
    (80 ≤ format_data.length →
      ∃ f : WinDS.VideoFormat, WinDS.parse_video_format format_data = Option.some f ∧
        f.width = u32le format_data 44 ∧
        f.height = |i32le format_data 48| ∧
        f.fps = (if 0 < u64le format_data 32
          then 10000000 / (u64le format_data 32 : ℚ) else 30)) := by
  constructor
  · intro h
    rw [WinDS.parse_video_format, if_pos (by omega)]
  · intro h
    rw [WinDS.parse_video_format, if_neg (by omega)]
    refine ⟨_, rfl, ?_, ?_, ?_⟩
    · show u32le (format_data.drop 40) 4 = u32le format_data 44
      rw [u32le_drop]
    · show |i32le (format_data.drop 40) 8| = |i32le format_data 48|
      rw [i32le_drop]
    · show (if 40 ≤ format_data.length then _ else _) = _
      rw [if_pos (by omega)]

/-- A concrete 80-byte format buffer: AvgTimePerFrame 333333 (about 30 fps) at
offset 32, width 1280 at offset 44, height -720 (bottom-up) at offset 48. -/
def fmtBuf80 : List Nat :=
  [0, 0, 0, 0, 0, 0, 0, 0, 0, 0, 0, 0, 0, 0, 0, 0,
   0, 0, 0, 0, 0, 0, 0, 0, 0, 0, 0, 0, 0, 0, 0, 0,
   21, 22, 5, 0, 0, 0, 0, 0,
   40, 0, 0, 0, 0, 5, 0, 0, 48, 253, 255, 255,
   1, 0, 24, 0, 89, 85, 89, 86, 0, 0, 0, 0,
   0, 0, 0, 0, 0, 0, 0, 0, 0, 0, 0, 0, 0, 0, 0, 0]

/-- C7 witness: a 10-byte buffer is skipped; the concrete 80-byte buffer
parses with width 1280, height 720 and fps 10,000,000 / 333,333. -/
theorem parse_video_format_spec_witness :
    WinDS.parse_video_format [0, 0, 0, 0, 0, 0, 0, 0, 0, 0] = Option.none ∧
    ∃ f : WinDS.VideoFormat, WinDS.parse_video_format fmtBuf80 = Option.some f ∧
      f.width = 1280 ∧ f.height = 720 ∧ f.fps = 10000000 / 333333 := by
  constructor
  · exact (parse_video_format_spec [0, 0, 0, 0, 0, 0, 0, 0, 0, 0]).1 (by decide)
  · obtain ⟨f, hf, hw, hh, hfps⟩ := (parse_video_format_spec fmtBuf80).2 (by decide)
    refine ⟨f, hf, ?_, ?_, ?_⟩
    · rw [hw]; decide
    · rw [hh]; decide
    · rw [hfps]; norm_num [fmtBuf80, u64le, u32le]

namespace WinDS

/-! ## Windows `set_device_control` (windows_directshow.py:420)

`_set_opencv_control_simple` interacts with the device through OpenCV; its
only device-dependent input is whether `cv2.VideoCapture` opens
(otherwise the function returns a constant result), modelled by the `canOpen`
flag. Every code path of `set_device_control` is total: the Python
try/except never lets an exception escape. -/

/-- The backend's fixed list of valid control names (windows_directshow.py:424). -/
def valid_controls : List String :=
  ["brightness", "contrast", "hue", "saturation", "sharpness",
   "gain", "exposure", "whitebalance", "whitebalance_automatic",
   "pan", "tilt", "roll", "zoom", "focus", "focus_automatic"]

/-- The backend's static value ranges (windows_directshow.py:434). -/
def control_ranges : List (String × Int × Int) :=
  [("brightness", 0, 100), ("contrast", 0, 100), ("hue", -15, 15),
   ("saturation", 0, 100), ("sharpness", 0, 100), ("gain", 0, 100),
   ("exposure", -13, -1), ("whitebalance", 2000, 10000),
   ("whitebalance_automatic", 0, 1), ("pan", -145, 145), ("tilt", -90, 100),
   ("roll", -100, 100), ("zoom", 100, 400), ("focus", 0, 100),
   ("focus_automatic", 0, 1)]

/-- Model of `_set_opencv_control_simple` (windows_directshow.py:477): if the capture
cannot be opened the function returns False; for the four basic controls it
converts the value and calls `cap.set`, then deliberately discards the result
and returns False ("so we return False, let the caller know other methods are
needed"); every other control also returns False. -/
def set_opencv_control_simple (canOpen : Bool) (control_name : String) : Bool :=
  if canOpen = false then false
  else if ["brightness", "contrast", "saturation", "hue"].contains control_name then
    false
  else false

/-- Model of `set_device_control` (windows_directshow.py:420): reject unknown names and
out-of-range values, then attempt the OpenCV path; both on its success and on
its failure (after printing a warning) the function returns True. -/
def set_device_control (canOpen : Bool) (control_name : String) (value : Int) : Bool :=
  if (valid_controls.contains control_name) = false then false
  else
    let range_ok :=
      match control_ranges.find? (fun p => p.1 == control_name) with
      | Option.some p => decide (p.2.1 ≤ value ∧ value ≤ p.2.2)
      | Option.none => true
    if range_ok = false then false
    else
      let success := set_opencv_control_simple canOpen control_name
      if success then true else true

end WinDS

/-- C2 counterexample: with a device that rejects everything (the capture
cannot even be opened, so `_set_opencv_control_simple` returns False — the
value is not accepted by any device), `set_device_control` for a known
in-range request still returns True, refuting "returns true only when the
value was actually accepted by the device". -/
theorem set_device_control_counterexample :
    WinDS.set_opencv_control_simple false "brightness" = false ∧
    WinDS.set_device_control false "brightness" 50 = true := ⟨rfl, rfl⟩

/-- C2 (amended): `set_device_control` never raises; it returns false exactly
when the control name is not in the backend's fixed valid list or the value
is outside the fixed static range, and returns true otherwise regardless of
whether the device accepted the value (the OpenCV attempt's result is
discarded). -/
theorem set_device_control_total_spec (canOpen : Bool) (control_name : String)
    (value : Int) :
    WinDS.set_device_control canOpen control_name value =
      (WinDS.valid_controls.contains control_name &&
        match WinDS.control_ranges.find? (fun p => p.1 == control_name) with
        | Option.some p => decide (p.2.1 ≤ value ∧ value ≤ p.2.2)
        | Option.none => true) := by
  rw [WinDS.set_device_control]
  cases hv : WinDS.valid_controls.contains control_name with
  | false => rfl
  | true =>
    cases hr : (match WinDS.control_ranges.find? (fun p => p.1 == control_name) with
      | Option.some p => decide (p.2.1 ≤ value ∧ value ≤ p.2.2)
      | Option.none => true) with
    | false => rfl
    | true => cases WinDS.set_opencv_control_simple canOpen control_name <;> rfl

namespace ACM

/-! ## The advanced control manager (advanced_controls.py)

`AdvancedControlManager` methods are embedded as explicit state transformers.
Backend devices (the `VideoDeviceController` a manager wraps) are idealized
key-value stores: `get_controls` reports a fixed list of `ControlInfo` records
and `set_control` succeeds exactly on reported control names, updating that
control's `current_value` (spec: "ControlInfo ... mutated only via
`set_control`"). Python `dict`s keyed by strings become association lists with
unique keys, preserving insertion order. -/

/-- Model of `ControlInfo` (video_device_controller.py:33), the backend-reported
control descriptor. -/
structure ControlInfo where
  name : String
  min_value : Int
  max_value : Int
  step : Int
  default_value : Int
  current_value : Int
  flags : Int := 0
  auto_supported : Bool := false
  description : String := ""
deriving DecidableEq, Repr

/-- Model of `AdvancedControlInfo` (advanced_controls.py:13). -/
structure AdvancedControlInfo where
  name : String
  display_name : String
  description : String
  control_type : String
  min_value : Option Int := Option.none
  max_value : Option Int := Option.none
  step : Int := 1
  default_value : Option Int := Option.none
  current_value : Option Int := Option.none
  auto_supported : Bool := false
  auto_enabled : Bool := false
  menu_items : Option (List String) := Option.none
  dependencies : Option (List String) := Option.none
deriving DecidableEq, Repr

/-- A Python value as passed to `set_control_with_validation` (typed `Any`).
`bool` is a subclass of `int` in Python, so `isinstance(value, int)` accepts
booleans; floats are idealized as rationals. -/
inductive PyValue where
  | int (i : Int)
  | float (q : ℚ)
  | bool (b : Bool)
  | str (s : String)
  | noneV
deriving DecidableEq, Repr

/-- Python `isinstance(value, (int, float))` (bool counts as int). -/
def PyValue.isNumeric : PyValue → Bool
  | .int _ => true
  | .bool _ => true
  | .float _ => true
  | _ => false

/-- Python `isinstance(value, (bool, int))` and `isinstance(value, int)`. -/
def PyValue.isIntLike : PyValue → Bool
  | .int _ => true
  | .bool _ => true
  | _ => false

/-- Numeric comparison value (Python compares bools as 0/1). -/
def PyValue.toRat : PyValue → ℚ
  | .int i => (i : ℚ)
  | .bool b => if b then 1 else 0
  | .float q => q
  | _ => 0

/-- Python truthiness, as used by `1 if value else 0`. -/
def PyValue.truthy : PyValue → Bool
  | .int i => decide (i ≠ 0)
  | .bool b => b
  | .float q => decide (q ≠ 0)
  | .str s => decide (s ≠ "")
  | .noneV => false

/-- The integer an int-like value stands for. -/
def PyValue.intVal : PyValue → Int
  | .int i => i
  | .bool b => if b then 1 else 0
  | _ => 0

/-- Python `int(value)` on a numeric value (floats truncate toward zero;
non-numeric values never reach this conversion because range validation
rejects them first, and the registry has no 'action'-typed entry). -/
def PyValue.toIntTrunc : PyValue → Int
  | .int i => i
  | .bool b => if b then 1 else 0
  | .float q => q.num / (q.den : Int)
  | _ => 0

/-- Association-list lookup (Python `d[k]` / `d.get(k)`). -/
def lookupA {α : Type} (l : List (String × α)) (k : String) : Option α :=
  (l.find? fun p => p.1 == k).map (fun p => p.2)

/-- Association-list store (Python `d[k] = v`): replace in place if the key
exists, else append. -/
def setA {α : Type} (l : List (String × α)) (k : String) (v : α) : List (String × α) :=
  if l.any (fun p => p.1 == k) then
    l.map fun p => if p.1 == k then (k, v) else p
  else l ++ [(k, v)]

/-- The static registry built by `AdvancedControlManager.__init__`
(advanced_controls.py:41), in dict insertion order. -/
def defaultAdvancedControls : List AdvancedControlInfo :=
  [{ name := "brightness", display_name := "亮度", description := "调整图像亮度",
     control_type := "range", auto_supported := true },
   { name := "contrast", display_name := "对比度", description := "调整图像对比度",
     control_type := "range", auto_supported := true },
   { name := "saturation", display_name := "饱和度", description := "调整颜色饱和度",
     control_type := "range", auto_supported := true },
   { name := "hue", display_name := "色调", description := "调整颜色色调",
     control_type := "range" },
   { name := "exposure", display_name := "曝光", description := "调整曝光时间",
     control_type := "range", auto_supported := true },
   { name := "exposure_auto", display_name := "自动曝光", description := "启用/禁用自动曝光",
     control_type := "boolean", dependencies := Option.some ["exposure"] },
   { name := "gain", display_name := "增益", description := "调整传感器增益",
     control_type := "range", auto_supported := true },
   { name := "focus", display_name := "对焦", description := "调整镜头对焦位置",
     control_type := "range", auto_supported := true },
   { name := "focus_auto", display_name := "自动对焦", description := "启用/禁用自动对焦",
     control_type := "boolean", dependencies := Option.some ["focus"] },
   { name := "focus_continuous", display_name := "连续对焦", description := "启用连续自动对焦",
     control_type := "boolean", dependencies := Option.some ["focus_auto"] },
   { name := "white_balance", display_name := "白平衡", description := "调整白平衡",
     control_type := "menu",
     menu_items := Option.some ["自动", "白炽灯", "荧光灯", "日光", "阴天", "手动"],
     auto_supported := true },
   { name := "white_balance_temperature", display_name := "色温", description := "手动设置色温",
     control_type := "range", min_value := Option.some 2000, max_value := Option.some 10000,
     dependencies := Option.some ["white_balance"] },
   { name := "zoom", display_name := "缩放", description := "数字缩放",
     control_type := "range", min_value := Option.some 100, max_value := Option.some 1000,
     default_value := Option.some 100 },
   { name := "pan", display_name := "水平移动", description := "水平方向移动",
     control_type := "range" },
   { name := "tilt", display_name := "垂直移动", description := "垂直方向移动",
     control_type := "range" },
   { name := "sharpness", display_name := "锐度", description := "调整图像锐度",
     control_type := "range" },
   { name := "gamma", display_name := "伽马", description := "调整伽马值",
     control_type := "range" },
   { name := "backlight_compensation", display_name := "背光补偿", description := "背光补偿",
     control_type := "boolean" },
   { name := "noise_reduction", display_name := "降噪", description := "图像降噪",
     control_type := "range" },
   { name := "image_stabilization", display_name := "图像稳定", description := "启用图像稳定",
     control_type := "boolean" }]

/-- The mutable state of an `AdvancedControlManager`. -/
structure ManagerState where
  advanced_controls : List AdvancedControlInfo
  auto_controls : List (String × Bool) := []
  control_profiles : List (String × List (String × Option Int × Bool)) := []
deriving DecidableEq, Repr

/-- The result of a manager operation that may talk to the backend: Python
return value, manager state, device state, and the `set_control` dispatches
sent to the backend (in order). -/
structure OpResult where
  ok : Bool
  st : ManagerState
  dev : List ControlInfo
  sent : List (String × Int)
deriving DecidableEq, Repr

/-- Idealized backend `set_control`: succeeds exactly on a reported control
name, setting its `current_value`. -/
def backend_set_control (dev : List ControlInfo) (name : String) (v : Int) :
    Bool × List ControlInfo :=
  if dev.any (fun c => c.name == name) then
    (true, dev.map fun c => if c.name == name then { c with current_value := v } else c)
  else (false, dev)

/-- Copying the backend-reported fields into a registry entry
(advanced_controls.py:209..213). -/
def updateFromBasic (a : AdvancedControlInfo) (b : ControlInfo) : AdvancedControlInfo :=
  { a with min_value := Option.some b.min_value, max_value := Option.some b.max_value,
           step := b.step, default_value := Option.some b.default_value,
           current_value := Option.some b.current_value }

/-- One registry entry after `get_available_controls`: refreshed from the
first matching backend control, untouched if the device does not report the
name. -/
def updEntry (dev : List ControlInfo) (a : AdvancedControlInfo) : AdvancedControlInfo :=
  match dev.find? (fun c => c.name == a.name) with
  | Option.some b => updateFromBasic a b
  | Option.none => a

/-- The registry after `get_available_controls` refreshed every entry whose
name the device reports (the Python code mutates the registry objects in
place). -/
def updRegistry (reg : List AdvancedControlInfo) (dev : List ControlInfo) :
    List AdvancedControlInfo :=
  reg.map (updEntry dev)

/-- Model of `get_available_controls` (advanced_controls.py:194): returns the
refreshed registry entries whose names the device reports, together with the
mutated registry. -/
def get_available_controls (reg : List AdvancedControlInfo) (dev : List ControlInfo) :
    List AdvancedControlInfo × List AdvancedControlInfo :=
  ((updRegistry reg dev).filter fun a => dev.any fun c => c.name == a.name,
   updRegistry reg dev)

/-- Model of `_validate_control_value` (advanced_controls.py:342). -/
def validate_control_value (control : AdvancedControlInfo) (value : PyValue) : Bool :=
  if control.control_type == "range" then
    if value.isNumeric = false then false
    else if (match control.min_value with
      | Option.some m => decide (value.toRat < (m : ℚ))
      | Option.none => false) then false
    else if (match control.max_value with
      | Option.some m => decide ((m : ℚ) < value.toRat)
      | Option.none => false) then false
    else true
  else if control.control_type == "boolean" then
    value.isIntLike
  else if control.control_type == "menu" then
    match control.menu_items with
    | Option.some items =>
      if (items.isEmpty = false) && value.isIntLike then
        decide (0 ≤ value.intVal ∧ value.intVal < (items.length : Int))
      else true
    | Option.none => true
  else true

/-- Whether every declared dependency is in the live availability set; the
name-set side of `_check_dependencies` (advanced_controls.py:361). -/
def depsSatisfied (control : AdvancedControlInfo) (availNames : List String) : Bool :=
  match control.dependencies with
  | Option.none => true
  | Option.some [] => true
  | Option.some deps => deps.all fun d => availNames.contains d

/-- Model of `_check_dependencies` (advanced_controls.py:361): `if not
control.dependencies` short-circuits (None or empty list); otherwise
`get_available_controls` runs (mutating the registry) and every dependency
must appear among the available names. -/
def check_dependencies (st : ManagerState) (dev : List ControlInfo)
    (control : AdvancedControlInfo) : Bool × ManagerState :=
  match control.dependencies with
  | Option.none => (true, st)
  | Option.some [] => (true, st)
  | Option.some deps =>
    let r := get_available_controls st.advanced_controls dev
    (deps.all (fun d => (r.1.map fun a => a.name).contains d),
     { st with advanced_controls := r.2 })

/-- The backend integer encoding of an accepted value
(advanced_controls.py:235..240): booleans via truthiness, menu indices passed
through when int-like (else 0), everything else via `int(value)`. -/
def convert_value (control : AdvancedControlInfo) (value : PyValue) : Int :=
  if control.control_type == "boolean" then
    if value.truthy then 1 else 0
  else if control.control_type == "menu" then
    if value.isIntLike then value.intVal else 0
  else value.toIntTrunc

/-- Model of `set_control_with_validation` (advanced_controls.py:219). -/
def set_control_with_validation (st : ManagerState) (dev : List ControlInfo)
    (control_name : String) (value : PyValue) : OpResult :=
  match st.advanced_controls.find? (fun a => a.name == control_name) with
  | Option.none => ⟨false, st, dev, []⟩
  | Option.some control =>
    if validate_control_value control value = false then ⟨false, st, dev, []⟩
    else
      let dr := check_dependencies st dev control
      if dr.1 = false then ⟨false, dr.2, dev, []⟩
      else
        let int_value := convert_value control value
        let br := backend_set_control dev control_name int_value
        ⟨br.1, dr.2, br.2, [(control_name, int_value)]⟩

/-- Model of `enable_auto_mode` (advanced_controls.py:244): requires the registry
entry to declare `auto_supported`, then dispatches value 1 to the synthesized
companion name and records the mode only on dispatch success. -/
def enable_auto_mode (st : ManagerState) (dev : List ControlInfo)
    (control_name : String) : OpResult :=
  match st.advanced_controls.find? (fun a => a.name == control_name) with
  | Option.none => ⟨false, st, dev, []⟩
  | Option.some control =>
    if control.auto_supported = false then ⟨false, st, dev, []⟩
    else
      let auto_control_name := control_name ++ "_automatic"
      let br := backend_set_control dev auto_control_name 1
      ⟨br.1,
       if br.1 then { st with auto_controls := setA st.auto_controls control_name true }
       else st,
       br.2, [(auto_control_name, 1)]⟩

/-- Model of `disable_auto_mode` (advanced_controls.py:262): checks only registry
membership (no `auto_supported` check), dispatches value 0 to the companion
name and records the mode only on dispatch success. -/
def disable_auto_mode (st : ManagerState) (dev : List ControlInfo)
    (control_name : String) : OpResult :=
  match st.advanced_controls.find? (fun a => a.name == control_name) with
  | Option.none => ⟨false, st, dev, []⟩
  | Option.some _ =>
    let auto_control_name := control_name ++ "_automatic"
    let br := backend_set_control dev auto_control_name 0
    ⟨br.1,
     if br.1 then { st with auto_controls := setA st.auto_controls control_name false }
     else st,
     br.2, [(auto_control_name, 0)]⟩

/-- Model of `create_control_profile` (advanced_controls.py:276): snapshot each
available control's current value and the manager-side auto flag. -/
def create_control_profile (st : ManagerState) (dev : List ControlInfo)
    (profile_name : String) : Bool × ManagerState :=
  let r := get_available_controls st.advanced_controls dev
  let profile := r.1.map fun c =>
    (c.name, c.current_value, (lookupA st.auto_controls c.name).getD false)
  (true,
   { st with advanced_controls := r.2,
             control_profiles := setA st.control_profiles profile_name profile })

/-- The stored profile value handed back to `set_control_with_validation`. -/
def storedValue : Option Int → PyValue
  | Option.some i => PyValue.int i
  | Option.none => PyValue.noneV

/-- The per-entry loop body of `apply_control_profile`
(advanced_controls.py:303..310): restore the auto mode first, then push the
stored value only for entries left in manual mode. -/
def apply_profile_entries (st : ManagerState) (dev : List ControlInfo) :
    List (String × Option Int × Bool) → ManagerState × List ControlInfo × List (String × Int)
  | [] => (st, dev, [])
  | (control_name, value, auto_enabled) :: rest =>
    if auto_enabled then
      let r := enable_auto_mode st dev control_name
      let rec' := apply_profile_entries r.st r.dev rest
      (rec'.1, rec'.2.1, r.sent ++ rec'.2.2)
    else
      let r1 := disable_auto_mode st dev control_name
      let r2 := set_control_with_validation r1.st r1.dev control_name (storedValue value)
      let rec' := apply_profile_entries r2.st r2.dev rest
      (rec'.1, rec'.2.1, r1.sent ++ (r2.sent ++ rec'.2.2))

/-- Model of `apply_control_profile` (advanced_controls.py:295). -/
def apply_control_profile (st : ManagerState) (dev : List ControlInfo)
    (profile_name : String) : OpResult :=
  match lookupA st.control_profiles profile_name with
  | Option.none => ⟨false, st, dev, []⟩
  | Option.some profile =>
    let r := apply_profile_entries st dev profile
    ⟨true, r.1, r.2.1, r.2.2⟩

end ACM

/-- C10: for a 'range'-typed registry control, `_validate_control_value`
accepts a value exactly when it is an int or float (Python bool counting as
int) and satisfies the bound on each side whose registry field is non-None;
with both `min_value` and `max_value` at the registry default `None`, every
int or float is accepted and no range check happens at all. -/
theorem validate_range_bounds_only_when_present (c : ACM.AdvancedControlInfo)
    (hc : c.control_type = "range") (v : ACM.PyValue) :
    ACM.validate_control_value c v = true ↔
      (v.isNumeric = true ∧
        (∀ m : Int, c.min_value = Option.some m → (m : ℚ) ≤ v.toRat) ∧
        (∀ m : Int, c.max_value = Option.some m → v.toRat ≤ (m : ℚ))) := by
  rw [ACM.validate_control_value]
  rw [if_pos (by simp [hc])]
  cases hv : v.isNumeric with
  | false => simp [hv]
  | true =>
    rcases hmin : c.min_value with _ | m <;> rcases hmax : c.max_value with _ | M <;>
      simp [hmin, hmax]

/-- C10 witness: the registry's 'hue' entry (range type, both bounds `None`)
accepts an arbitrarily large integer value. -/
theorem validate_range_bounds_only_when_present_witness :
    ACM.validate_control_value
      { name := "hue", display_name := "色调", description := "调整颜色色调",
        control_type := "range" } (ACM.PyValue.int 999999999) = true := by
  exact (validate_range_bounds_only_when_present _ rfl _).mpr
    ⟨rfl, by simp, by simp⟩

/-- The manager state right after `__init__`, with arbitrary auto-mode map
and profiles. -/
def freshManager (A : List (String × Bool))
    (P : List (String × List (String × Option Int × Bool))) : ACM.ManagerState :=
  { advanced_controls := ACM.defaultAdvancedControls, auto_controls := A,
    control_profiles := P }

/-- C1 counterexample: the registry's 'hue' entry does not declare
`auto_supported`, yet `disable_auto_mode` is not a no-op for it: on a device
reporting a "hue_automatic" control it dispatches one `set_control` with
value 0, returns True and records the mode. -/
theorem auto_mode_counterexample :
    ((ACM.defaultAdvancedControls.find? (fun a => a.name == "hue")).map
        (fun a => a.auto_supported)) = Option.some false ∧
    (ACM.disable_auto_mode (freshManager [] [])
        [{ name := "hue_automatic", min_value := 0, max_value := 1, step := 1,
           default_value := 0, current_value := 1 }] "hue").ok = true ∧
    (ACM.disable_auto_mode (freshManager [] [])
        [{ name := "hue_automatic", min_value := 0, max_value := 1, step := 1,
           default_value := 0, current_value := 1 }] "hue").sent =
      [("hue_automatic", 0)] ∧
    (ACM.disable_auto_mode (freshManager [] [])
        [{ name := "hue_automatic", min_value := 0, max_value := 1, step := 1,
           default_value := 0, current_value := 1 }] "hue").st.auto_controls =
      [("hue", false)] := by
  refine ⟨rfl, rfl, rfl, rfl⟩

/-- C1 (amended): for a registered control name, `enable_auto_mode` fails as
a no-op (returns false, dispatches nothing, changes nothing) when the entry
does not declare `auto_supported`, and otherwise dispatches exactly one
`set_control` to the companion name with value 1, recording the mode exactly
when the dispatch succeeds; `disable_auto_mode` checks only registry
membership — regardless of `auto_supported` it dispatches exactly one
`set_control` to the companion name with value 0, recording the mode exactly
when the dispatch succeeds. Unregistered names make both fail as no-ops. -/
theorem auto_mode_dispatch_spec (st : ACM.ManagerState) (dev : List ACM.ControlInfo)
    (n : String) :
    (st.advanced_controls.find? (fun a => a.name == n) = Option.none →
      ACM.enable_auto_mode st dev n = ⟨false, st, dev, []⟩ ∧
      ACM.disable_auto_mode st dev n = ⟨false, st, dev, []⟩) ∧
    (∀ c, st.advanced_controls.find? (fun a => a.name == n) = Option.some c →
      (c.auto_supported = false →
        ACM.enable_auto_mode st dev n = ⟨false, st, dev, []⟩) ∧
      (c.auto_supported = true →
        ACM.enable_auto_mode st dev n =
          ⟨(ACM.backend_set_control dev (n ++ "_automatic") 1).1,
           if (ACM.backend_set_control dev (n ++ "_automatic") 1).1 then
             { st with auto_controls := ACM.setA st.auto_controls n true }
           else st,
           (ACM.backend_set_control dev (n ++ "_automatic") 1).2,
           [(n ++ "_automatic", 1)]⟩) ∧
      ACM.disable_auto_mode st dev n =
        ⟨(ACM.backend_set_control dev (n ++ "_automatic") 0).1,
         if (ACM.backend_set_control dev (n ++ "_automatic") 0).1 then
           { st with auto_controls := ACM.setA st.auto_controls n false }
         else st,
         (ACM.backend_set_control dev (n ++ "_automatic") 0).2,
         [(n ++ "_automatic", 0)]⟩) := by
  constructor
  · intro hfind
    rw [ACM.enable_auto_mode, ACM.disable_auto_mode, hfind]
    exact ⟨rfl, rfl⟩
  · intro c hfind
    refine ⟨?_, ?_, ?_⟩
    · intro hauto
      rw [ACM.enable_auto_mode, hfind]
      simp [hauto]
    · intro hauto
      rw [ACM.enable_auto_mode, hfind]
      simp [hauto]
    · rw [ACM.disable_auto_mode, hfind]

/-- C1 witness: for the auto-supported 'brightness' entry on a device that
reports "brightness_automatic", `enable_auto_mode` dispatches exactly
`[("brightness_automatic", 1)]` and returns True. -/
theorem auto_mode_dispatch_spec_witness :
    ACM.enable_auto_mode (freshManager [] [])
        [{ name := "brightness_automatic", min_value := 0, max_value := 1, step := 1,
           default_value := 1, current_value := 1 }] "brightness" =
      ⟨true,
       { advanced_controls := ACM.defaultAdvancedControls,
         auto_controls := [("brightness", true)], control_profiles := [] },
       [{ name := "brightness_automatic", min_value := 0, max_value := 1, step := 1,
          default_value := 1, current_value := 1 }],
       [("brightness_automatic", 1)]⟩ := by
  have h := ((auto_mode_dispatch_spec (freshManager [] [])
      [{ name := "brightness_automatic", min_value := 0, max_value := 1, step := 1,
         default_value := 1, current_value := 1 }] "brightness").2
    { name := "brightness", display_name := "亮度", description := "调整图像亮度",
      control_type := "range", auto_supported := true } (by decide)).2.1 rfl
  rw [h]
  decide

/-- A decidable encoding of "the named registry entry declares a dependency
missing from the live availability set" (the hypothesis of the C3 gate). -/
def hasMissingDependency (reg : List ACM.AdvancedControlInfo)
    (dev : List ACM.ControlInfo) (n : String) : Bool :=
  match reg.find? (fun a => a.name == n) with
  | Option.none => false
  | Option.some c =>
    match c.dependencies with
    | Option.none => false
    | Option.some deps =>
      deps.any fun d =>
        !(((ACM.get_available_controls reg dev).1.map fun a => a.name).contains d)

/-- C3: whenever a control's registry entry declares a dependency absent from
the live available-controls set, `set_control_with_validation` returns false
without dispatching any backend `set_control` and without touching the
device, for every value — even one passing the control's own validation. -/
theorem dependency_gate_blocks (st : ACM.ManagerState) (dev : List ACM.ControlInfo)
    (n : String) (v : ACM.PyValue)
    (hmiss : hasMissingDependency st.advanced_controls dev n = true) :
    (ACM.set_control_with_validation st dev n v).ok = false ∧
    (ACM.set_control_with_validation st dev n v).sent = [] ∧
    (ACM.set_control_with_validation st dev n v).dev = dev := by
  rw [ACM.set_control_with_validation]
  rw [hasMissingDependency] at hmiss
  cases hfind : st.advanced_controls.find? (fun a => a.name == n) with
  | none => exact ⟨rfl, rfl, rfl⟩
  | some c =>
    rw [hfind] at hmiss
    simp only [] at hmiss
    cases hval : ACM.validate_control_value c v with
    | false => simp [hval]
    | true =>
      simp only [hval]
      cases hdeps : c.dependencies with
      | none => rw [hdeps] at hmiss; exact absurd hmiss (by simp)
      | some deps =>
        rw [hdeps] at hmiss
        have hne : deps ≠ [] := by
          intro he; rw [he] at hmiss; exact absurd hmiss (by simp)
        have hfail : (ACM.check_dependencies st dev c).1 = false := by
          rw [ACM.check_dependencies, hdeps]
          cases deps with
          | nil => exact absurd rfl hne
          | cons d ds =>
            simp only []
            rw [List.any_eq_true] at hmiss
            obtain ⟨x, hx, hxm⟩ := hmiss
            rw [List.all_eq_false]
            exact ⟨x, hx, by simpa using hxm⟩
        simp [hfail]

/-- C3 witness: on a device reporting no controls, 'focus_auto' (which
declares `dependencies = ["focus"]`) is rejected with no dispatch even though
`True` passes its boolean validation. -/
theorem dependency_gate_blocks_witness :
    (ACM.set_control_with_validation (freshManager [] []) [] "focus_auto"
        (ACM.PyValue.bool true)).ok = false ∧
    (ACM.set_control_with_validation (freshManager [] []) [] "focus_auto"
        (ACM.PyValue.bool true)).sent = [] ∧
    ACM.validate_control_value
      { name := "focus_auto", display_name := "自动对焦", description := "启用/禁用自动对焦",
        control_type := "boolean", dependencies := Option.some ["focus"] }
      (ACM.PyValue.bool true) = true := by
  have h := dependency_gate_blocks (freshManager [] []) [] "focus_auto"
    (ACM.PyValue.bool true) (by decide)
  exact ⟨h.1, h.2.1, by decide⟩

namespace ACM

/-! ## Helper lemmas for the profile round-trip (C9) -/

theorem updEntry_fields (dev : List ControlInfo) (a : AdvancedControlInfo) :
    (updEntry dev a).name = a.name ∧
    (updEntry dev a).control_type = a.control_type ∧
    (updEntry dev a).auto_supported = a.auto_supported ∧
    (updEntry dev a).dependencies = a.dependencies ∧
    (updEntry dev a).menu_items = a.menu_items := by
  simp only [updEntry]
  split <;> exact ⟨rfl, rfl, rfl, rfl, rfl⟩

theorem updEntry_congr (dev1 dev2 : List ControlInfo) (a : AdvancedControlInfo)
    (h : dev1.find? (fun c => c.name == a.name) = dev2.find? (fun c => c.name == a.name)) :
    updEntry dev1 a = updEntry dev2 a := by
  simp only [updEntry, h]

theorem updEntry_idem (dev : List ControlInfo) (a : AdvancedControlInfo) :
    updEntry dev (updEntry dev a) = updEntry dev a := by
  cases h : dev.find? (fun c => c.name == a.name) with
  | none =>
    have h1 : updEntry dev a = a := by simp only [updEntry, h]
    rw [h1, h1]
  | some b =>
    have h1 : updEntry dev a = updateFromBasic a b := by simp only [updEntry, h]
    rw [h1]
    show updEntry dev (updateFromBasic a b) = updateFromBasic a b
    simp only [updEntry, show (updateFromBasic a b).name = a.name from rfl, h]
    rfl

theorem updRegistry_names (reg : List AdvancedControlInfo) (dev : List ControlInfo) :
    (updRegistry reg dev).map (fun a => a.name) = reg.map (fun a => a.name) := by
  induction reg with
  | nil => rfl
  | cons a reg ih =>
    simp only [updRegistry, List.map_cons] at *
    exact congrArg₂ _ ((updEntry_fields dev a).1) ih

theorem updRegistry_congr (reg : List AdvancedControlInfo) (dev1 dev2 : List ControlInfo)
    (h : ∀ a ∈ reg, dev1.find? (fun c => c.name == a.name) =
      dev2.find? (fun c => c.name == a.name)) :
    updRegistry reg dev1 = updRegistry reg dev2 := by
  induction reg with
  | nil => rfl
  | cons a reg ih =>
    simp only [updRegistry, List.map_cons] at *
    exact congrArg₂ _ (updEntry_congr dev1 dev2 a (h a (List.mem_cons_self a reg)))
      (ih fun x hx => h x (List.mem_cons_of_mem a hx))

theorem updRegistry_idem (reg : List AdvancedControlInfo) (dev : List ControlInfo) :
    updRegistry (updRegistry reg dev) dev = updRegistry reg dev := by
  induction reg with
  | nil => rfl
  | cons a reg ih =>
    simp only [updRegistry, List.map_cons] at *
    exact congrArg₂ _ (updEntry_idem dev a) ih

theorem any_name_eq_map (dev : List ControlInfo) (s : String) :
    (dev.any fun c => c.name == s) = ((dev.map fun c => c.name).any fun m => m == s) := by
  induction dev with
  | nil => rfl
  | cons c tl ih => simp [List.any_cons, ih]

theorem any_name_congr (dev1 dev2 : List ControlInfo)
    (h : dev1.map (fun c => c.name) = dev2.map (fun c => c.name)) (s : String) :
    (dev1.any fun c => c.name == s) = (dev2.any fun c => c.name == s) := by
  rw [any_name_eq_map, any_name_eq_map, h]

theorem backend_set_control_names (dev : List ControlInfo) (t : String) (v : Int) :
    ((backend_set_control dev t v).2).map (fun c => c.name) = dev.map (fun c => c.name) := by
  rw [backend_set_control]
  split
  · show (dev.map fun c => if c.name == t then { c with current_value := v } else c).map
        (fun c => c.name) = dev.map (fun c => c.name)
    rw [List.map_map]
    refine List.map_congr_left fun c _ => ?_
    show (if c.name == t then { c with current_value := v } else c).name = c.name
    split <;> rfl
  · rfl

theorem find?_name_map_set (dev : List ControlInfo) (t : String) (v : Int) (n : String)
    (hne : n ≠ t) :
    (dev.map fun c => if c.name == t then { c with current_value := v } else c).find?
        (fun c => c.name == n) = dev.find? (fun c => c.name == n) := by
  induction dev with
  | nil => rfl
  | cons c tl ih =>
    rw [List.map_cons]
    by_cases hcn : c.name = n
    · have hct : (c.name == t) = false := by simp [hcn, hne]
      rw [if_neg (by simp [hct]),
        @List.find?_cons_of_pos _ (fun c => c.name == n) c _ (by simp [hcn]),
        @List.find?_cons_of_pos _ (fun c => c.name == n) c tl (by simp [hcn])]
    · have hname : (if c.name == t then { c with current_value := v } else c).name
          = c.name := by split <;> rfl
      rw [List.find?_cons_of_neg _ (by rw [hname]; simp [hcn]),
        List.find?_cons_of_neg _ (by simp [hcn]), ih]

theorem backend_set_find?_ne (dev : List ControlInfo) (t : String) (v : Int) (n : String)
    (hne : n ≠ t) :
    ((backend_set_control dev t v).2).find? (fun c => c.name == n) =
      dev.find? (fun c => c.name == n) := by
  rw [backend_set_control]
  split
  · exact find?_name_map_set dev t v n hne
  · rfl

theorem map_pointwise_id (f : ControlInfo → ControlInfo) :
    ∀ l : List ControlInfo, (∀ x ∈ l, f x = x) → l.map f = l := by
  intro l
  induction l with
  | nil => intro _; rfl
  | cons x tl ih =>
    intro h
    rw [List.map_cons, h x (List.mem_cons_self x tl),
      ih fun y hy => h y (List.mem_cons_of_mem x hy)]

theorem map_set_self_noop (n : String) (b : ControlInfo) :
    ∀ dev : List ControlInfo, dev.find? (fun c => c.name == n) = Option.some b →
      (dev.map fun c => c.name).Nodup →
      (dev.map fun c => if c.name == n then { c with current_value := b.current_value }
        else c) = dev := by
  intro dev
  induction dev with
  | nil => intro h _; cases h
  | cons c tl ih =>
    intro hfind hnd
    rw [List.map_cons] at hnd ⊢
    by_cases hcn : c.name = n
    · rw [@List.find?_cons_of_pos _ (fun c => c.name == n) c tl (by simp [hcn])] at hfind
      have hcb : c = b := Option.some.inj hfind
      have htl : (tl.map fun x => if x.name == n then
          { x with current_value := b.current_value } else x) = tl := by
        refine map_pointwise_id _ tl fun x hx => ?_
        have hxn : x.name ≠ n := by
          intro hxe
          have hcnot := (List.nodup_cons.mp hnd).1
          have hxm : x.name ∈ tl.map (fun c => c.name) :=
            List.mem_map_of_mem (fun c => c.name) hx
          rw [hxe, ← hcn] at hxm
          exact hcnot hxm
        rw [if_neg (by simp [hxn])]
      rw [if_pos (by simp [hcn]), htl, ← hcb]
    · rw [List.find?_cons_of_neg _ (by simp [hcn])] at hfind
      rw [if_neg (by simp [hcn]), ih hfind (List.nodup_cons.mp hnd).2]

theorem backend_set_self_noop (dev : List ControlInfo) (n : String) (b : ControlInfo)
    (hfind : dev.find? (fun c => c.name == n) = Option.some b)
    (hnd : (dev.map fun c => c.name).Nodup) :
    backend_set_control dev n b.current_value = (true, dev) := by
  rw [backend_set_control,
    if_pos (List.any_eq_true.mpr
      ⟨b, List.mem_of_find?_eq_some hfind, List.find?_some hfind⟩)]
  exact congrArg (fun l => (true, l)) (map_set_self_noop n b dev hfind hnd)

end ACM

namespace ACM

theorem find?_map_setA_self {α : Type} (k : String) (v : α) :
    ∀ l : List (String × α), l.any (fun p => p.1 == k) = true →
      (l.map fun p => if p.1 == k then (k, v) else p).find? (fun p => p.1 == k)
        = Option.some (k, v) := by
  intro l
  induction l with
  | nil => intro h; cases h
  | cons p tl ih =>
    intro hany
    rw [List.map_cons]
    by_cases hp : p.1 = k
    · rw [if_pos (by simp [hp]),
        @List.find?_cons_of_pos _ (fun p => p.1 == k) (k, v) _ (by simp)]
    · rw [if_neg (by simp [hp]),
        List.find?_cons_of_neg _ (by simp [hp])]
      refine ih ?_
      rw [List.any_cons] at hany
      simpa [hp] using hany

theorem lookupA_setA_self {α : Type} (l : List (String × α)) (k : String) (v : α) :
    lookupA (setA l k v) k = Option.some v := by
  by_cases hany : l.any (fun p => p.1 == k) = true
  · rw [setA, if_pos hany, lookupA, find?_map_setA_self k v l hany]
    rfl
  · have hnone : List.find? (fun p => p.1 == k) l = Option.none :=
      List.find?_eq_none.mpr fun x hx hpx =>
        hany (List.any_eq_true.mpr ⟨x, hx, hpx⟩)
    rw [setA, if_neg hany, lookupA, List.find?_append, hnone]
    simp

theorem lookupA_setA_ne {α : Type} (l : List (String × α)) (k : String) (v : α)
    (n : String) (hne : n ≠ k) : lookupA (setA l k v) n = lookupA l n := by
  by_cases hany : l.any (fun p => p.1 == k) = true
  · rw [setA, if_pos hany, lookupA, lookupA]
    congr 1
    clear hany
    induction l with
    | nil => rfl
    | cons p tl ih =>
      rw [List.map_cons]
      by_cases hp : p.1 = k
      · rw [if_pos (by simp [hp]),
          List.find?_cons_of_neg _ (by simp [Ne.symm hne]),
          List.find?_cons_of_neg _ (by simp [hp, Ne.symm hne])]
        exact ih
      · rw [if_neg (by simp [hp])]
        by_cases hpn : p.1 = n
        · rw [@List.find?_cons_of_pos _ (fun p => p.1 == n) p _ (by simp [hpn]),
            @List.find?_cons_of_pos _ (fun p => p.1 == n) p tl (by simp [hpn])]
        · rw [List.find?_cons_of_neg _ (by simp [hpn]),
            List.find?_cons_of_neg _ (by simp [hpn])]
          exact ih
  · rw [setA, if_neg hany, lookupA, lookupA, List.find?_append]
    have h1 : List.find? (fun p => p.1 == n) [(k, v)] = Option.none := by
      simp [Ne.symm hne]
    rw [h1, Option.or_none]

/-- No registry name is another registry name with the "_automatic" suffix
appended: the synthesized companion names never collide with the registry. -/
theorem no_automatic_collision :
    ∀ a ∈ defaultAdvancedControls, ∀ a2 ∈ defaultAdvancedControls,
      a.name ≠ a2.name ++ "_automatic" := by decide

theorem find?_updRegistry (reg : List AdvancedControlInfo) (dev : List ControlInfo)
    (n : String) :
    (updRegistry reg dev).find? (fun a => a.name == n) =
      (reg.find? (fun a => a.name == n)).map (updEntry dev) := by
  rw [updRegistry, List.find?_map]
  have hfun : ((fun a : AdvancedControlInfo => a.name == n) ∘ updEntry dev)
      = fun a => a.name == n := by
    funext a
    simp [Function.comp, (updEntry_fields dev a).1]
  rw [hfun]

theorem convert_value_int (c : AdvancedControlInfo) (x : Int) :
    convert_value c (PyValue.int x) =
      if c.control_type == "boolean" then (if x = 0 then (0 : Int) else 1) else x := by
  by_cases hb : c.control_type = "boolean"
  · have hrhs : (if c.control_type == "boolean" then (if x = 0 then (0 : Int) else 1)
        else x) = (if x = 0 then (0 : Int) else 1) := if_pos (by simp [hb])
    rw [hrhs, convert_value, if_pos (by simp [hb])]
    rcases eq_or_ne x 0 with hx | hx
    · subst hx
      simp [PyValue.truthy]
    · rw [if_neg hx]
      simp [PyValue.truthy, hx]
  · have hrhs : (if c.control_type == "boolean" then (if x = 0 then (0 : Int) else 1)
        else x) = x := if_neg (by simp [hb])
    rw [hrhs, convert_value, if_neg (by simp [hb])]
    by_cases hm : c.control_type = "menu"
    · rw [if_pos (by simp [hm])]
      rfl
    · rw [if_neg (by simp [hm])]
      rfl

/-- The available controls reported for a device by a fresh manager. -/
def availControls (dev : List ControlInfo) : List AdvancedControlInfo :=
  (get_available_controls defaultAdvancedControls dev).1

/-- The available control names for a device. -/
def availNames (dev : List ControlInfo) : List String :=
  (availControls dev).map fun a => a.name

/-- The snapshot `create_control_profile` stores for a device: current value
and manager-side auto flag of every available control, in registry order. -/
def profileSnapshot (dev : List ControlInfo) (A : List (String × Bool)) :
    List (String × Option Int × Bool) :=
  (availControls dev).map fun c =>
    (c.name, c.current_value, (lookupA A c.name).getD false)

/-- The backend dispatches `apply_control_profile` emits for one stored
entry: a profile entry restored to auto mode dispatches only the companion
enable (when the registry supports auto); a manual entry dispatches the
companion disable first, then the stored value exactly when it passes
validation and the dependency gate. -/
def entryDispatches (dev : List ControlInfo) (e : String × Option Int × Bool) :
    List (String × Int) :=
  match (updRegistry defaultAdvancedControls dev).find? (fun a => a.name == e.1) with
  | Option.none => []
  | Option.some c =>
    if e.2.2 then
      if c.auto_supported then [(e.1 ++ "_automatic", 1)] else []
    else
      (e.1 ++ "_automatic", 0) ::
        (if validate_control_value c (storedValue e.2.1) &&
            depsSatisfied c (availNames dev) then
          [(e.1, convert_value c (storedValue e.2.1))]
        else [])

end ACM

namespace ACM

theorem updRegistry_stable (dev dv : List ControlInfo)
    (h3 : ∀ a ∈ defaultAdvancedControls, dv.find? (fun c => c.name == a.name) =
      dev.find? (fun c => c.name == a.name)) :
    updRegistry (updRegistry defaultAdvancedControls dev) dv =
      updRegistry defaultAdvancedControls dev := by
  have h : ∀ a ∈ updRegistry defaultAdvancedControls dev,
      dv.find? (fun c => c.name == a.name) = dev.find? (fun c => c.name == a.name) := by
    intro a ha
    rw [updRegistry] at ha
    obtain ⟨a0, ha0, rfl⟩ := List.mem_map.mp ha
    rw [(updEntry_fields dev a0).1]
    exact h3 a0 ha0
  rw [updRegistry_congr _ dv dev h, updRegistry_idem]

theorem get_available_stable (dev dv : List ControlInfo)
    (h2 : dv.map (fun c => c.name) = dev.map (fun c => c.name))
    (h3 : ∀ a ∈ defaultAdvancedControls, dv.find? (fun c => c.name == a.name) =
      dev.find? (fun c => c.name == a.name)) :
    get_available_controls (updRegistry defaultAdvancedControls dev) dv =
      (availControls dev, updRegistry defaultAdvancedControls dev) := by
  rw [get_available_controls, updRegistry_stable dev dv h3]
  have hfilter : ((updRegistry defaultAdvancedControls dev).filter
        fun a => dv.any fun c => c.name == a.name) = availControls dev := by
    rw [availControls, get_available_controls]
    exact List.filter_congr fun (a : AdvancedControlInfo) _ => any_name_congr dv dev h2 a.name
  rw [hfilter]

theorem check_dependencies_stable (dev dv : List ControlInfo) (st : ManagerState)
    (c : AdvancedControlInfo)
    (h1 : st.advanced_controls = updRegistry defaultAdvancedControls dev)
    (h2 : dv.map (fun c => c.name) = dev.map (fun c => c.name))
    (h3 : ∀ a ∈ defaultAdvancedControls, dv.find? (fun c => c.name == a.name) =
      dev.find? (fun c => c.name == a.name)) :
    check_dependencies st dv c = (depsSatisfied c (availNames dev), st) := by
  rw [check_dependencies, depsSatisfied]
  cases hd : c.dependencies with
  | none => rfl
  | some deps =>
    cases deps with
    | nil => rfl
    | cons d ds =>
      rw [h1, get_available_stable dev dv h2 h3]
      have hst : ({ st with advanced_controls := updRegistry defaultAdvancedControls dev }
          : ManagerState) = st := by
        rw [← h1]
      dsimp only
      rw [hst]
      rfl

theorem enable_eval (dev dv : List ControlInfo) (st : ManagerState) (n : String)
    (c : AdvancedControlInfo)
    (h1 : st.advanced_controls = updRegistry defaultAdvancedControls dev)
    (hfind : (updRegistry defaultAdvancedControls dev).find? (fun a => a.name == n) =
      Option.some c) :
    enable_auto_mode st dv n =
      if c.auto_supported = false then ⟨false, st, dv, []⟩
      else
        ⟨(backend_set_control dv (n ++ "_automatic") 1).1,
         if (backend_set_control dv (n ++ "_automatic") 1).1 then
           { st with auto_controls := setA st.auto_controls n true }
         else st,
         (backend_set_control dv (n ++ "_automatic") 1).2,
         [(n ++ "_automatic", 1)]⟩ := by
  rw [enable_auto_mode, h1, hfind]

theorem disable_eval (dev dv : List ControlInfo) (st : ManagerState) (n : String)
    (c : AdvancedControlInfo)
    (h1 : st.advanced_controls = updRegistry defaultAdvancedControls dev)
    (hfind : (updRegistry defaultAdvancedControls dev).find? (fun a => a.name == n) =
      Option.some c) :
    disable_auto_mode st dv n =
      ⟨(backend_set_control dv (n ++ "_automatic") 0).1,
       if (backend_set_control dv (n ++ "_automatic") 0).1 then
         { st with auto_controls := setA st.auto_controls n false }
       else st,
       (backend_set_control dv (n ++ "_automatic") 0).2,
       [(n ++ "_automatic", 0)]⟩ := by
  rw [disable_auto_mode, h1, hfind]

theorem scwv_eval (dev dv : List ControlInfo) (st : ManagerState) (n : String)
    (c : AdvancedControlInfo) (pv : PyValue)
    (h1 : st.advanced_controls = updRegistry defaultAdvancedControls dev)
    (h2 : dv.map (fun c => c.name) = dev.map (fun c => c.name))
    (h3 : ∀ a ∈ defaultAdvancedControls, dv.find? (fun c => c.name == a.name) =
      dev.find? (fun c => c.name == a.name))
    (hfind : (updRegistry defaultAdvancedControls dev).find? (fun a => a.name == n) =
      Option.some c) :
    set_control_with_validation st dv n pv =
      if validate_control_value c pv = false then ⟨false, st, dv, []⟩
      else if depsSatisfied c (availNames dev) = false then ⟨false, st, dv, []⟩
      else
        ⟨(backend_set_control dv n (convert_value c pv)).1, st,
         (backend_set_control dv n (convert_value c pv)).2,
         [(n, convert_value c pv)]⟩ := by
  rw [set_control_with_validation, h1, hfind]
  dsimp only
  rw [check_dependencies_stable dev dv st c h1 h2 h3]

theorem lookupA_setA_getD (l : List (String × Bool)) (k : String) (v : Bool)
    (m : String) :
    (lookupA (setA l k v) m).getD false =
      if m = k then v else (lookupA l m).getD false := by
  by_cases h : m = k
  · subst h
    rw [lookupA_setA_self, if_pos rfl]
    rfl
  · rw [lookupA_setA_ne _ _ _ _ h, if_neg h]

end ACM

namespace ACM

/-- The state/device/dispatch invariant of the `apply_control_profile` loop:
starting from the registry refreshed against `dev` and a device differing from
`dev` at most at companion names, processing snapshot-consistent entries
leaves every registry-named control's backend record and every manager auto
flag unchanged, and emits exactly the per-entry dispatches. -/
theorem apply_entries_inv (dev : List ControlInfo) (A : List (String × Bool))
    (hnd : (dev.map fun c => c.name).Nodup)
    (hbool : ∀ a ∈ defaultAdvancedControls, a.control_type = "boolean" →
      ∀ b : ControlInfo, dev.find? (fun c => c.name == a.name) = Option.some b →
        b.current_value = 0 ∨ b.current_value = 1) :
    ∀ entries : List (String × Option Int × Bool), ∀ st : ManagerState,
      ∀ dv : List ControlInfo,
      st.advanced_controls = updRegistry defaultAdvancedControls dev →
      dv.map (fun c => c.name) = dev.map (fun c => c.name) →
      (∀ a ∈ defaultAdvancedControls,
        dv.find? (fun c => c.name == a.name) = dev.find? (fun c => c.name == a.name)) →
      (∀ m : String, (lookupA st.auto_controls m).getD false = (lookupA A m).getD false) →
      (∀ e ∈ entries, ∃ b : ControlInfo,
        dev.find? (fun c => c.name == e.1) = Option.some b ∧
        e.2.1 = Option.some b.current_value ∧
        e.2.2 = ((lookupA A e.1).getD false : Bool) ∧
        defaultAdvancedControls.any (fun a => a.name == e.1) = true) →
      (apply_profile_entries st dv entries).1.advanced_controls
          = updRegistry defaultAdvancedControls dev ∧
      (apply_profile_entries st dv entries).2.1.map (fun c => c.name)
          = dev.map (fun c => c.name) ∧
      (∀ a ∈ defaultAdvancedControls,
        (apply_profile_entries st dv entries).2.1.find? (fun c => c.name == a.name)
          = dev.find? (fun c => c.name == a.name)) ∧
      (∀ m : String,
        (lookupA (apply_profile_entries st dv entries).1.auto_controls m).getD false
          = (lookupA A m).getD false) ∧
      (apply_profile_entries st dv entries).2.2
          = (entries.map (entryDispatches dev)).flatten := by
  intro entries
  induction entries with
  | nil =>
    intro st dv h1 h2 h3 h4 _
    exact ⟨h1, h2, h3, h4, rfl⟩
  | cons e rest ih =>
    obtain ⟨n, v, au⟩ := e
    intro st dv h1 h2 h3 h4 hval
    obtain ⟨b, hbfind, hv, hau, hmem⟩ := hval (n, v, au) (List.mem_cons_self _ _)
    dsimp only at hbfind hv hau hmem
    have hvalrest : ∀ e ∈ rest, ∃ b : ControlInfo,
        dev.find? (fun c => c.name == e.1) = Option.some b ∧
        e.2.1 = Option.some b.current_value ∧
        e.2.2 = ((lookupA A e.1).getD false : Bool) ∧
        defaultAdvancedControls.any (fun a => a.name == e.1) = true :=
      fun e he => hval e (List.mem_cons_of_mem _ he)
    obtain ⟨a0, ha0mem, ha0p⟩ := List.any_eq_true.mp hmem
    obtain ⟨a1, hf1⟩ := Option.isSome_iff_exists.mp
      (show (defaultAdvancedControls.find? (fun a => a.name == n)).isSome = true from
        List.find?_isSome.mpr ⟨a0, ha0mem, ha0p⟩)
    have ha1mem : a1 ∈ defaultAdvancedControls := List.mem_of_find?_eq_some hf1
    have ha1n : a1.name = n := by simpa using List.find?_some hf1
    have hfind : (updRegistry defaultAdvancedControls dev).find? (fun a => a.name == n)
        = Option.some (updEntry dev a1) := by
      rw [find?_updRegistry, hf1]
      rfl
    have hcomp : ∀ a ∈ defaultAdvancedControls, a.name ≠ n ++ "_automatic" := by
      intro a ha
      rw [← ha1n]
      exact no_automatic_collision a ha a1 ha1mem
    cases au with
    | true =>
      have happly : apply_profile_entries st dv ((n, v, true) :: rest) =
          ((apply_profile_entries (enable_auto_mode st dv n).st
              (enable_auto_mode st dv n).dev rest).1,
           (apply_profile_entries (enable_auto_mode st dv n).st
              (enable_auto_mode st dv n).dev rest).2.1,
           (enable_auto_mode st dv n).sent ++
             (apply_profile_entries (enable_auto_mode st dv n).st
                (enable_auto_mode st dv n).dev rest).2.2) := rfl
      have hen := enable_eval dev dv st n (updEntry dev a1) h1 hfind
      by_cases hcs : (updEntry dev a1).auto_supported = false
      · have hen' : enable_auto_mode st dv n = ⟨false, st, dv, []⟩ := by
          rw [hen, if_pos hcs]
        have heD : entryDispatches dev (n, v, true) = [] := by
          simp only [entryDispatches]
          rw [hfind]
          simp [hcs]
        obtain ⟨k1, k2, k3, k4, k5⟩ := ih st dv h1 h2 h3 h4 hvalrest
        rw [happly, hen']
        refine ⟨k1, k2, k3, k4, ?_⟩
        dsimp only
        rw [k5, List.map_cons, List.flatten_cons, heD, List.nil_append]
      · have htrue : (updEntry dev a1).auto_supported = true := by
          simpa using hcs
        have hen' : enable_auto_mode st dv n =
            ⟨(backend_set_control dv (n ++ "_automatic") 1).1,
             if (backend_set_control dv (n ++ "_automatic") 1).1 then
               { st with auto_controls := setA st.auto_controls n true }
             else st,
             (backend_set_control dv (n ++ "_automatic") 1).2,
             [(n ++ "_automatic", 1)]⟩ := by
          rw [hen, if_neg (by simp [htrue])]
        have heD : entryDispatches dev (n, v, true) = [(n ++ "_automatic", 1)] := by
          simp only [entryDispatches]
          rw [hfind]
          simp [htrue]
        have h1a : (if (backend_set_control dv (n ++ "_automatic") 1).1 then
            { st with auto_controls := setA st.auto_controls n true }
            else st).advanced_controls = updRegistry defaultAdvancedControls dev := by
          split <;> exact h1
        have h2a : ((backend_set_control dv (n ++ "_automatic") 1).2).map
            (fun c => c.name) = dev.map (fun c => c.name) :=
          (backend_set_control_names dv _ 1).trans h2
        have h3a : ∀ a ∈ defaultAdvancedControls,
            ((backend_set_control dv (n ++ "_automatic") 1).2).find?
              (fun c => c.name == a.name) = dev.find? (fun c => c.name == a.name) :=
          fun a ha => (backend_set_find?_ne dv _ 1 a.name (hcomp a ha)).trans (h3 a ha)
        have h4a : ∀ m : String,
            (lookupA (if (backend_set_control dv (n ++ "_automatic") 1).1 then
              { st with auto_controls := setA st.auto_controls n true }
              else st).auto_controls m).getD false = (lookupA A m).getD false := by
          intro m
          split
          · show (lookupA (setA st.auto_controls n true) m).getD false
              = (lookupA A m).getD false
            rw [lookupA_setA_getD]
            by_cases hm : m = n
            · rw [if_pos hm, hm]
              exact hau
            · rw [if_neg hm]
              exact h4 m
          · exact h4 m
        obtain ⟨k1, k2, k3, k4, k5⟩ := ih _ _ h1a h2a h3a h4a hvalrest
        rw [happly, hen']
        refine ⟨k1, k2, k3, k4, ?_⟩
        dsimp only
        rw [k5, List.map_cons, List.flatten_cons, heD]
    | false =>
      have happly : apply_profile_entries st dv ((n, v, false) :: rest) =
          ((apply_profile_entries
              (set_control_with_validation (disable_auto_mode st dv n).st
                (disable_auto_mode st dv n).dev n (storedValue v)).st
              (set_control_with_validation (disable_auto_mode st dv n).st
                (disable_auto_mode st dv n).dev n (storedValue v)).dev rest).1,
           (apply_profile_entries
              (set_control_with_validation (disable_auto_mode st dv n).st
                (disable_auto_mode st dv n).dev n (storedValue v)).st
              (set_control_with_validation (disable_auto_mode st dv n).st
                (disable_auto_mode st dv n).dev n (storedValue v)).dev rest).2.1,
           (disable_auto_mode st dv n).sent ++
             ((set_control_with_validation (disable_auto_mode st dv n).st
                (disable_auto_mode st dv n).dev n (storedValue v)).sent ++
              (apply_profile_entries
                (set_control_with_validation (disable_auto_mode st dv n).st
                  (disable_auto_mode st dv n).dev n (storedValue v)).st
                (set_control_with_validation (disable_auto_mode st dv n).st
                  (disable_auto_mode st dv n).dev n (storedValue v)).dev rest).2.2)) := rfl
      have hdis : disable_auto_mode st dv n =
          ⟨(backend_set_control dv (n ++ "_automatic") 0).1,
           if (backend_set_control dv (n ++ "_automatic") 0).1 then
             { st with auto_controls := setA st.auto_controls n false }
           else st,
           (backend_set_control dv (n ++ "_automatic") 0).2,
           [(n ++ "_automatic", 0)]⟩ :=
        disable_eval dev dv st n (updEntry dev a1) h1 hfind
      have h1a : (if (backend_set_control dv (n ++ "_automatic") 0).1 then
          { st with auto_controls := setA st.auto_controls n false }
          else st).advanced_controls = updRegistry defaultAdvancedControls dev := by
        split <;> exact h1
      have h2a : ((backend_set_control dv (n ++ "_automatic") 0).2).map
          (fun c => c.name) = dev.map (fun c => c.name) :=
        (backend_set_control_names dv _ 0).trans h2
      have h3a : ∀ a ∈ defaultAdvancedControls,
          ((backend_set_control dv (n ++ "_automatic") 0).2).find?
            (fun c => c.name == a.name) = dev.find? (fun c => c.name == a.name) :=
        fun a ha => (backend_set_find?_ne dv _ 0 a.name (hcomp a ha)).trans (h3 a ha)
      have h4a : ∀ m : String,
          (lookupA (if (backend_set_control dv (n ++ "_automatic") 0).1 then
            { st with auto_controls := setA st.auto_controls n false }
            else st).auto_controls m).getD false = (lookupA A m).getD false := by
        intro m
        split
        · show (lookupA (setA st.auto_controls n false) m).getD false
            = (lookupA A m).getD false
          rw [lookupA_setA_getD]
          by_cases hm : m = n
          · rw [if_pos hm, hm]
            exact hau
          · rw [if_neg hm]
            exact h4 m
        · exact h4 m
      have hsc := scwv_eval dev ((backend_set_control dv (n ++ "_automatic") 0).2)
        (if (backend_set_control dv (n ++ "_automatic") 0).1 then
          { st with auto_controls := setA st.auto_controls n false } else st)
        n (updEntry dev a1) (storedValue v) h1a h2a h3a hfind
      have hfb : ((backend_set_control dv (n ++ "_automatic") 0).2).find?
          (fun c => c.name == n) = Option.some b := by
        have ha := h3a a1 ha1mem
        rw [ha1n] at ha
        rw [ha, hbfind]
      have hnda : (((backend_set_control dv (n ++ "_automatic") 0).2).map
          fun c => c.name).Nodup := by
        rw [h2a]
        exact hnd
      have hconv : convert_value (updEntry dev a1) (storedValue v) = b.current_value := by
        rw [hv]
        show convert_value (updEntry dev a1) (PyValue.int b.current_value) = b.current_value
        rw [convert_value_int]
        by_cases hbt : (updEntry dev a1).control_type = "boolean"
        · have hat : a1.control_type = "boolean" := by
            rw [← (updEntry_fields dev a1).2.1]
            exact hbt
          have hb01 := hbool a1 ha1mem hat b (by rw [ha1n]; exact hbfind)
          rw [if_pos (by simp [hbt])]
          rcases hb01 with h0 | h01
          · rw [h0, if_pos rfl]
          · rw [h01, if_neg (by norm_num)]
        · rw [if_neg (by simp [hbt])]
      -- the stored-value dispatch is a no-op on the device
      have hnoop : backend_set_control ((backend_set_control dv (n ++ "_automatic") 0).2)
          n (convert_value (updEntry dev a1) (storedValue v)) =
          (true, (backend_set_control dv (n ++ "_automatic") 0).2) := by
        rw [hconv]
        exact backend_set_self_noop _ n b hfb hnda
      -- in every validation/dependency case the scwv step keeps state and device
      have hscst : (set_control_with_validation (disable_auto_mode st dv n).st
          (disable_auto_mode st dv n).dev n (storedValue v)).st =
          (if (backend_set_control dv (n ++ "_automatic") 0).1 then
            { st with auto_controls := setA st.auto_controls n false } else st) := by
        rw [hdis]
        dsimp only
        rw [hsc]
        split
        · rfl
        · split
          · rfl
          · rfl
      have hscdev : (set_control_with_validation (disable_auto_mode st dv n).st
          (disable_auto_mode st dv n).dev n (storedValue v)).dev =
          (backend_set_control dv (n ++ "_automatic") 0).2 := by
        rw [hdis]
        dsimp only
        rw [hsc]
        split
        · rfl
        · split
          · rfl
          · rw [hnoop]
      have hscsent : (set_control_with_validation (disable_auto_mode st dv n).st
          (disable_auto_mode st dv n).dev n (storedValue v)).sent =
          (if validate_control_value (updEntry dev a1) (storedValue v) &&
              depsSatisfied (updEntry dev a1) (availNames dev) then
            [(n, convert_value (updEntry dev a1) (storedValue v))]
          else []) := by
        rw [hdis]
        dsimp only
        rw [hsc]
        by_cases hvb : validate_control_value (updEntry dev a1) (storedValue v) = false
        · rw [if_pos hvb]
          simp [hvb]
        · have hvb' : validate_control_value (updEntry dev a1) (storedValue v) = true := by
            simpa using hvb
          rw [if_neg hvb]
          by_cases hdb : depsSatisfied (updEntry dev a1) (availNames dev) = false
          · rw [if_pos hdb]
            simp [hvb', hdb]
          · have hdb' : depsSatisfied (updEntry dev a1) (availNames dev) = true := by
              simpa using hdb
            rw [if_neg hdb]
            simp [hvb', hdb']
      have heD : entryDispatches dev (n, v, false) =
          (n ++ "_automatic", 0) ::
            (if validate_control_value (updEntry dev a1) (storedValue v) &&
                depsSatisfied (updEntry dev a1) (availNames dev) then
              [(n, convert_value (updEntry dev a1) (storedValue v))]
            else []) := by
        simp only [entryDispatches]
        rw [hfind]
        rfl
      obtain ⟨k1, k2, k3, k4, k5⟩ := ih _ _
        (hscst ▸ h1a) (hscdev ▸ h2a) (fun a ha => hscdev ▸ h3a a ha)
        (fun m => hscst ▸ h4a m) hvalrest
      rw [happly]
      refine ⟨k1, k2, k3, k4, ?_⟩
      dsimp only
      rw [k5, List.map_cons, List.flatten_cons, heD, hscsent]
      have hdsent : (disable_auto_mode st dv n).sent = [(n ++ "_automatic", 0)] := by
        rw [hdis]
      rw [hdsent]
      rfl

end ACM

/-- C9 (amended): on a device with unique control names whose backend state
does not change between the two calls and whose boolean-typed controls report
values in {0, 1}, `create_control_profile` immediately followed by
`apply_control_profile` succeeds and leaves every registry-named control's
backend record (in particular its `current_value`) and every manager
auto-mode flag unchanged; apply processes each stored entry by restoring its
auto mode first and dispatches the stored manual value only for entries whose
snapshot has `auto_enabled` false (the per-entry dispatch lists, in order). -/
theorem profile_roundtrip_spec (dev : List ACM.ControlInfo) (A : List (String × Bool))
    (P : List (String × List (String × Option Int × Bool))) (pname : String)
    (hnd : (dev.map fun c => c.name).Nodup)
    (hbool : ∀ a ∈ ACM.defaultAdvancedControls, a.control_type = "boolean" →
      ∀ b ∈ dev, b.name = a.name → b.current_value = 0 ∨ b.current_value = 1) :
    (ACM.create_control_profile (freshManager A P) dev pname).1 = true ∧
    (ACM.apply_control_profile
        (ACM.create_control_profile (freshManager A P) dev pname).2 dev pname).ok
      = true ∧
    (∀ n : String, ACM.defaultAdvancedControls.any (fun a => a.name == n) = true →
      (ACM.apply_control_profile
          (ACM.create_control_profile (freshManager A P) dev pname).2 dev
          pname).dev.find? (fun c => c.name == n)
        = dev.find? (fun c => c.name == n)) ∧
    (∀ m : String,
      (ACM.lookupA (ACM.apply_control_profile
          (ACM.create_control_profile (freshManager A P) dev pname).2 dev
          pname).st.auto_controls m).getD false
        = (ACM.lookupA A m).getD false) ∧
    (ACM.apply_control_profile
        (ACM.create_control_profile (freshManager A P) dev pname).2 dev pname).sent
      = ((ACM.profileSnapshot dev A).map (ACM.entryDispatches dev)).flatten := by
  have hcreate : ACM.create_control_profile (freshManager A P) dev pname =
      (true, ⟨ACM.updRegistry ACM.defaultAdvancedControls dev, A,
        ACM.setA P pname (ACM.profileSnapshot dev A)⟩) := rfl
  have happly : ACM.apply_control_profile
      (⟨ACM.updRegistry ACM.defaultAdvancedControls dev, A,
        ACM.setA P pname (ACM.profileSnapshot dev A)⟩ : ACM.ManagerState) dev pname =
      ⟨true,
       (ACM.apply_profile_entries
         (⟨ACM.updRegistry ACM.defaultAdvancedControls dev, A,
           ACM.setA P pname (ACM.profileSnapshot dev A)⟩ : ACM.ManagerState) dev
         (ACM.profileSnapshot dev A)).1,
       (ACM.apply_profile_entries
         (⟨ACM.updRegistry ACM.defaultAdvancedControls dev, A,
           ACM.setA P pname (ACM.profileSnapshot dev A)⟩ : ACM.ManagerState) dev
         (ACM.profileSnapshot dev A)).2.1,
       (ACM.apply_profile_entries
         (⟨ACM.updRegistry ACM.defaultAdvancedControls dev, A,
           ACM.setA P pname (ACM.profileSnapshot dev A)⟩ : ACM.ManagerState) dev
         (ACM.profileSnapshot dev A)).2.2⟩ := by
    rw [ACM.apply_control_profile]
    dsimp only
    rw [ACM.lookupA_setA_self]
  have hbool' : ∀ a ∈ ACM.defaultAdvancedControls, a.control_type = "boolean" →
      ∀ b : ACM.ControlInfo, dev.find? (fun c => c.name == a.name) = Option.some b →
        b.current_value = 0 ∨ b.current_value = 1 := by
    intro a ha ht b hb
    exact hbool a ha ht b (List.mem_of_find?_eq_some hb)
      (by simpa using List.find?_some hb)
  have hentries : ∀ e ∈ ACM.profileSnapshot dev A, ∃ b : ACM.ControlInfo,
      dev.find? (fun c => c.name == e.1) = Option.some b ∧
      e.2.1 = Option.some b.current_value ∧
      e.2.2 = ((ACM.lookupA A e.1).getD false : Bool) ∧
      ACM.defaultAdvancedControls.any (fun a => a.name == e.1) = true := by
    intro e he
    rw [ACM.profileSnapshot] at he
    obtain ⟨c, hc, rfl⟩ := List.mem_map.mp he
    rw [ACM.availControls, ACM.get_available_controls] at hc
    obtain ⟨hcm, hcp⟩ := List.mem_filter.mp hc
    rw [ACM.updRegistry] at hcm
    obtain ⟨a0, ha0, rfl⟩ := List.mem_map.mp hcm
    rw [(ACM.updEntry_fields dev a0).1] at hcp
    obtain ⟨x, hx, hpx⟩ := List.any_eq_true.mp hcp
    obtain ⟨b, hbf⟩ := Option.isSome_iff_exists.mp
      (show (dev.find? (fun c => c.name == a0.name)).isSome = true from
        List.find?_isSome.mpr ⟨x, hx, hpx⟩)
    have hupd : ACM.updEntry dev a0 = ACM.updateFromBasic a0 b := by
      simp only [ACM.updEntry, hbf]
    refine ⟨b, ?_, ?_, ?_, ?_⟩
    · dsimp only
      rw [(ACM.updEntry_fields dev a0).1]
      exact hbf
    · dsimp only
      rw [hupd]
      rfl
    · dsimp only
    · dsimp only
      rw [(ACM.updEntry_fields dev a0).1]
      exact List.any_eq_true.mpr ⟨a0, ha0, by simp⟩
  obtain ⟨k1, k2, k3, k4, k5⟩ := ACM.apply_entries_inv dev A hnd hbool'
    (ACM.profileSnapshot dev A)
    (⟨ACM.updRegistry ACM.defaultAdvancedControls dev, A,
      ACM.setA P pname (ACM.profileSnapshot dev A)⟩ : ACM.ManagerState) dev
    rfl rfl (fun a _ => rfl) (fun m => rfl) hentries
  rw [hcreate]
  dsimp only
  rw [happly]
  refine ⟨rfl, rfl, ?_, ?_, ?_⟩
  · intro n hn
    obtain ⟨a, ham, hap⟩ := List.any_eq_true.mp hn
    have han : a.name = n := by simpa using hap
    dsimp only
    rw [← han]
    exact k3 a ham
  · intro m
    dsimp only
    exact k4 m
  · dsimp only
    exact k5

/-- A device reporting one boolean-typed control whose current value is 5
(not 0/1). -/
def cxDev : List ACM.ControlInfo :=
  [{ name := "backlight_compensation", min_value := 0, max_value := 10, step := 1,
     default_value := 0, current_value := 5 }]

/-- C9 counterexample: on a device whose boolean-typed 'backlight_compensation'
control reports current value 5, `create_control_profile` immediately followed
by `apply_control_profile` (no backend change in between) rewrites the value
to 1 through Python truthiness, so the round-trip is not a no-op on
`current_value`. -/
theorem profile_roundtrip_counterexample :
    (ACM.apply_control_profile
        (ACM.create_control_profile (freshManager [] []) cxDev "p").2 cxDev "p").ok
      = true ∧
    ((ACM.apply_control_profile
        (ACM.create_control_profile (freshManager [] []) cxDev "p").2 cxDev
        "p").dev.find? (fun c => c.name == "backlight_compensation")).map
      (fun c => c.current_value) = Option.some 1 ∧
    (cxDev.find? (fun c => c.name == "backlight_compensation")).map
      (fun c => c.current_value) = Option.some 5 := by
  refine ⟨rfl, rfl, rfl⟩

/-- A well-behaved device: one range control at mid-scale. -/
def wDev : List ACM.ControlInfo :=
  [{ name := "brightness", min_value := 0, max_value := 100, step := 1,
     default_value := 50, current_value := 50 }]

/-- C9 witness: on the well-behaved device the round-trip leaves the
brightness current value at 50. -/
theorem profile_roundtrip_spec_witness :
    ((ACM.apply_control_profile
        (ACM.create_control_profile (freshManager [] []) wDev "p").2 wDev
        "p").dev.find? (fun c => c.name == "brightness")).map
      (fun c => c.current_value) = Option.some 50 := by
  have h := profile_roundtrip_spec wDev [] [] "p" (by decide) (by decide)
  have h3 := h.2.2.1 "brightness" (by decide)
  rw [h3]
  decide
